import Mathlib

/-!
# Verification of the SlideShot HTML-to-PPTX Layout & Shape Synthesis pipeline

A shallow embedding, in Lean 4, of the parts of the converter that the
specification's claims are about:

* `PlaywrightLayoutCollector.normalizeCoordinates` (coordinate normalization),
* `ElementClassifier` (shape classification and table extraction),
* `StyleConverter` (CSS → drawing-attribute mapping, gradients, borders),
* `ConversionPipeline` (decorative filtering, auto-scaling, empty-input errors).

Modelling conventions:

* JavaScript numbers are modelled as `ℚ`.  `NaN` results (for example
  `parseFloat` of a non-numeric string) are modelled by `Option ℚ` with `none`
  playing the role of `NaN`; every comparison against a possibly-`NaN` value
  goes through helpers (`qOptGt`, `qOptLt`) that return `false` on `none`,
  matching the behaviour of JS comparisons on `NaN`.
* Optional / possibly-`undefined` string fields are `Option String`;
  JS string truthiness (`undefined` and `""` are falsy) is `jsTruthy`.
* Trees with child lists are encoded as mutual inductives
  (`ParsedElement`/`ParsedForest`, `PPTXElement`/`PPTXForest`) so that all
  recursions and inductions are structural.
* `Math.round` is `jsRound` (`⌊q + 1/2⌋`, which is exactly JS semantics),
  `Math.min`/`Math.max` are `min`/`max` on `ℚ`.
-/

/-! ## JavaScript string and number primitives -/

/-- Whitespace as used by `String.prototype.trim` and the regex class `\s`
(restricted to the characters that occur in this pipeline's inputs). -/
def jsIsSpace (c : Char) : Bool := c.isWhitespace

/-- JS string truthiness for a possibly-`undefined` string:
`undefined` and the empty string are falsy. -/
def jsTruthy : Option String → Bool
  | none => false
  | some s => !(s == "")

/-- `a || b` on possibly-undefined strings, producing a defaulted string:
used for patterns like `styles.borderRadius || "0px"`. -/
def jsOrDefault (a : Option String) (d : String) : String :=
  match a with
  | some s => if s == "" then d else s
  | none => d

/-- `a || b` where both operands stay optional strings. -/
def jsOrOpt (a b : Option String) : Option String :=
  if jsTruthy a then a else b

/-- Numeric value of a list of decimal digit characters. -/
def digitsVal (ds : List Char) : ℕ :=
  ds.foldl (fun a c => 10 * a + (c.toNat - '0'.toNat)) 0

/-- Value of a decimal fraction part (digits after the point). -/
def fracVal (ds : List Char) : ℚ :=
  (digitsVal ds : ℚ) / (10 : ℚ) ^ ds.length

/-- JS `parseFloat`: skip leading whitespace, optional sign, integer digits,
optional `.` + fraction digits; `none` models `NaN` (no parsable prefix).
Exponent notation never occurs in the CSS values this pipeline reads and is
not modelled. -/
def jsParseFloat (s : String) : Option ℚ :=
  let cs := s.data.dropWhile jsIsSpace
  let signed : ℚ × List Char :=
    match cs with
    | '-' :: t => (-1, t)
    | '+' :: t => (1, t)
    | _ => (1, cs)
  let ip := signed.2.takeWhile Char.isDigit
  let rest := signed.2.dropWhile Char.isDigit
  let fp :=
    match rest with
    | '.' :: t => t.takeWhile Char.isDigit
    | _ => []
  if ip.isEmpty && fp.isEmpty then none
  else some (signed.1 * ((digitsVal ip : ℚ) + fracVal fp))

/-- JS `parseInt` (radix 10): skip leading whitespace, optional sign, integer
digits only; `none` models `NaN`. -/
def jsParseInt (s : String) : Option ℤ :=
  let cs := s.data.dropWhile jsIsSpace
  let signed : ℤ × List Char :=
    match cs with
    | '-' :: t => (-1, t)
    | '+' :: t => (1, t)
    | _ => (1, cs)
  let ip := signed.2.takeWhile Char.isDigit
  if ip.isEmpty then none
  else some (signed.1 * (digitsVal ip : ℤ))

/-- `x > c` where `x` may be `NaN` (JS comparisons on `NaN` are `false`). -/
def qOptGt (o : Option ℚ) (c : ℚ) : Bool :=
  match o with
  | some v => decide (c < v)
  | none => false

/-- `x < c` where `x` may be `NaN`. -/
def qOptLt (o : Option ℚ) (c : ℚ) : Bool :=
  match o with
  | some v => decide (v < c)
  | none => false

/-- `x >= c` where `x` may be `NaN`. -/
def qOptGe (o : Option ℚ) (c : ℚ) : Bool :=
  match o with
  | some v => decide (c ≤ v)
  | none => false

/-- JS `Math.round`: `⌊x + 1/2⌋` (half-up, also for negative numbers). -/
def jsRound (q : ℚ) : ℚ := ((⌊q + 1/2⌋ : ℤ) : ℚ)

/-- Is `needle` a contiguous sublist of `hay`?  Boolean model of
`String.prototype.includes` on the underlying character lists. -/
def listInfixB (needle : List Char) : List Char → Bool
  | [] => needle.isEmpty
  | c :: cs => needle.isPrefixOf (c :: cs) || listInfixB needle cs

/-- `hay.includes(needle)` for strings. -/
def strContains (hay needle : String) : Bool := listInfixB needle.data hay.data

/-- Lower-casing of a string (ASCII, as used on tag names / CSS keywords). -/
def strLower (s : String) : String := ⟨s.data.map Char.toLower⟩

/-- Upper-casing of a string. -/
def strUpper (s : String) : String := ⟨s.data.map Char.toUpper⟩

/-- `String.prototype.trim`. -/
def strTrim (s : String) : String :=
  ⟨((s.data.dropWhile jsIsSpace).reverse.dropWhile jsIsSpace).reverse⟩

/-- Hex digit character (lower case), as produced by `Number.toString(16)`. -/
def hexChar (n : ℕ) : Char :=
  if n < 10 then Char.ofNat ('0'.toNat + n) else Char.ofNat ('a'.toNat + (n - 10))

/-- Fuelled base-16 digit expansion (most significant first).  The fuel of 16
is ample for every number a color channel can hold. -/
def hexDigitsAux : ℕ → ℕ → List Char → List Char
  | 0, _, acc => acc
  | fuel + 1, n, acc =>
    if n < 16 then hexChar n :: acc
    else hexDigitsAux fuel (n / 16) (hexChar (n % 16) :: acc)

/-- `n.toString(16)` for a natural number. -/
def natToHex (n : ℕ) : List Char := hexDigitsAux 16 n []

/-- One color channel as in `rgbToHex`'s helper `toHex`:
hex digits, left-padded to two characters when a single digit. -/
def channelHex (n : ℕ) : List Char :=
  let h := natToHex n
  if h.length = 1 then '0' :: h else h

/-! ## Data model (`shared/conversion-types.ts`) -/

/-- `ElementPosition`: absolute box in inches. -/
structure ElementPosition where
  x : ℚ
  y : ℚ
  width : ℚ
  height : ℚ
  deriving DecidableEq, Repr

/-- `ComputedStyles`: flat CSS property bag, every field optional.  Only the
fields the embedded code reads are carried. -/
structure ComputedStyles where
  backgroundColor : Option String := none
  color : Option String := none
  fontSize : Option String := none
  fontFamily : Option String := none
  fontWeight : Option String := none
  fontStyle : Option String := none
  textAlign : Option String := none
  borderRadius : Option String := none
  borderWidth : Option String := none
  borderStyle : Option String := none
  borderColor : Option String := none
  borderTopWidth : Option String := none
  borderRightWidth : Option String := none
  borderBottomWidth : Option String := none
  borderLeftWidth : Option String := none
  borderTopColor : Option String := none
  borderRightColor : Option String := none
  borderBottomColor : Option String := none
  borderLeftColor : Option String := none
  borderTopStyle : Option String := none
  borderRightStyle : Option String := none
  borderBottomStyle : Option String := none
  borderLeftStyle : Option String := none
  opacity : Option String := none
  deriving DecidableEq, Repr

/-- The per-node payload of a `ParsedElement` (everything except children). -/
structure ParsedData where
  id : String
  tagName : String
  textContent : String
  styles : ComputedStyles
  position : ElementPosition
  deriving DecidableEq, Repr

mutual
/-- `ParsedElement`: a parsed DOM node with absolute geometry. -/
inductive ParsedElement : Type where
  | mk : ParsedData → ParsedForest → ParsedElement
  deriving DecidableEq
/-- A list of `ParsedElement`s (the `children` array / a root list). -/
inductive ParsedForest : Type where
  | nil : ParsedForest
  | cons : ParsedElement → ParsedForest → ParsedForest
  deriving DecidableEq
end

/-- The data payload of a parsed element. -/
def ParsedElement.data : ParsedElement → ParsedData
  | .mk d _ => d

/-- The children of a parsed element. -/
def ParsedElement.children : ParsedElement → ParsedForest
  | .mk _ cs => cs

/-- Concatenation of parsed forests. -/
def ParsedForest.append : ParsedForest → ParsedForest → ParsedForest
  | .nil, ys => ys
  | .cons x xs, ys => .cons x (ParsedForest.append xs ys)

/-- Length of a parsed forest (`children.length`). -/
def ParsedForest.length : ParsedForest → ℕ
  | .nil => 0
  | .cons _ xs => 1 + ParsedForest.length xs

/-- The underlying list of a parsed forest. -/
def ParsedForest.toList : ParsedForest → List ParsedElement
  | .nil => []
  | .cons x xs => x :: ParsedForest.toList xs

/-- PowerPoint shape kinds (`PPTXShapeType`, including the internal
`table`/`skip` kinds used by the pipeline). -/
inductive PPTXShapeType : Type where
  | rect | roundRect | ellipse | triangle | line | text | table | skip
  deriving DecidableEq, Repr

/-- Dash kinds of a drawn line. -/
inductive DashType : Type where
  | solid | dash | dot
  deriving DecidableEq, Repr

/-- A border side. -/
inductive BorderSide : Type where
  | top | right | bottom | left
  deriving DecidableEq, Repr

/-- Horizontal text alignment kinds. -/
inductive AlignKind : Type where
  | left | center | right | justify
  deriving DecidableEq, Repr

/-- One color stop of a converted gradient. -/
structure GradientStop where
  color : String
  position : ℚ
  deriving DecidableEq, Repr

/-- A converted gradient fill (`{type: "gradient", colors, angle}`). -/
structure GradientFill where
  colors : List GradientStop
  angle : ℚ
  deriving DecidableEq, Repr

/-- A fill is either a solid hex color string or a gradient descriptor. -/
inductive FillValue : Type where
  | color (c : String)
  | gradient (g : GradientFill)
  deriving DecidableEq, Repr

/-- Outline / line attributes. -/
structure LineStyle where
  color : String
  width : ℚ
  dashType : DashType
  deriving DecidableEq, Repr

/-- An independent per-side border entry (`SingleSidedBorder`). -/
structure SingleSidedBorder where
  side : BorderSide
  color : String
  width : ℚ
  dashType : DashType
  elementPosition : ElementPosition
  deriving DecidableEq, Repr

/-- Styles attached to one table cell by `extractCellStyles`. -/
structure CellStyles where
  fill : Option String := none
  color : Option String := none
  fontSize : Option ℚ := none
  fontFace : Option String := none
  bold : Option Bool := none
  italic : Option Bool := none
  align : Option String := none
  line : Option LineStyle := none
  deriving DecidableEq, Repr

/-- `TableCell`. -/
structure TableCell where
  text : String
  isHeader : Bool
  styles : CellStyles
  deriving DecidableEq, Repr

/-- `TableRow`. -/
structure TableRow where
  cells : List TableCell
  deriving DecidableEq, Repr

/-- `TableData`. -/
structure TableData where
  rows : List TableRow
  numCols : ℕ
  deriving DecidableEq, Repr

/-- `PPTXStyles`. -/
structure PPTXStyles where
  fill : Option FillValue := none
  fillOpacity : Option ℚ := none
  line : Option LineStyle := none
  singleSidedBorders : Option (List SingleSidedBorder) := none
  fontFace : Option String := none
  fontSize : Option ℚ := none
  color : Option String := none
  bold : Option Bool := none
  italic : Option Bool := none
  align : Option AlignKind := none
  deriving DecidableEq, Repr

/-- The per-node payload of a `PPTXElement` (everything except children). -/
structure PPTXData where
  id : String
  type : PPTXShapeType
  position : ElementPosition
  styles : PPTXStyles
  text : Option String := none
  tableData : Option TableData := none
  deriving DecidableEq, Repr

mutual
/-- `PPTXElement`: a classified drawing primitive.  An absent (`undefined`)
children array and an empty one are observationally identical throughout the
pipeline and are both modelled by the empty forest. -/
inductive PPTXElement : Type where
  | mk : PPTXData → PPTXForest → PPTXElement
  deriving DecidableEq
/-- A list of `PPTXElement`s. -/
inductive PPTXForest : Type where
  | nil : PPTXForest
  | cons : PPTXElement → PPTXForest → PPTXForest
  deriving DecidableEq
end

/-- The data payload of a PPTX element. -/
def PPTXElement.data : PPTXElement → PPTXData
  | .mk d _ => d

/-- The children of a PPTX element. -/
def PPTXElement.children : PPTXElement → PPTXForest
  | .mk _ cs => cs

/-- Concatenation of PPTX forests. -/
def PPTXForest.append : PPTXForest → PPTXForest → PPTXForest
  | .nil, ys => ys
  | .cons x xs, ys => .cons x (PPTXForest.append xs ys)

/-- Length of a PPTX forest. -/
def PPTXForest.length : PPTXForest → ℕ
  | .nil => 0
  | .cons _ xs => 1 + PPTXForest.length xs

/-! ## Preorder traversals -/

mutual
/-- Preorder list of all node payloads of an element (the node, then its
descendants). -/
def ParsedElement.nodeData : ParsedElement → List ParsedData
  | .mk d cs => d :: ParsedForest.nodeData cs
/-- Preorder list of all node payloads of a forest. -/
def ParsedForest.nodeData : ParsedForest → List ParsedData
  | .nil => []
  | .cons e es => ParsedElement.nodeData e ++ ParsedForest.nodeData es
end

/-! ## `PlaywrightLayoutCollector` (`html-parser.ts`): coordinate
normalization of the browser-collected layout tree -/

namespace PlaywrightLayoutCollector

/-- `findMinCoordinates` for `x`: the minimum `x` over all elements including
nested children (`none` on the empty forest, where the source leaves the
accumulator at `Infinity`). -/
def forestMinX (es : ParsedForest) : Option ℚ :=
  match es.nodeData.map (fun d => d.position.x) with
  | [] => none
  | a :: as => some (as.foldl min a)

/-- `findMinCoordinates` for `y`. -/
def forestMinY (es : ParsedForest) : Option ℚ :=
  match es.nodeData.map (fun d => d.position.y) with
  | [] => none
  | a :: as => some (as.foldl min a)

mutual
/-- `shiftCoordinates` on one element: subtract `(mx, my)` from the position,
leave width/height and all other fields unchanged, recurse into children. -/
def shiftElement (mx my : ℚ) : ParsedElement → ParsedElement
  | .mk d cs =>
    .mk { d with position := { d.position with x := d.position.x - mx, y := d.position.y - my } }
      (shiftForest mx my cs)
/-- `shiftCoordinates` on a forest. -/
def shiftForest (mx my : ℚ) : ParsedForest → ParsedForest
  | .nil => .nil
  | .cons e es => .cons (shiftElement mx my e) (shiftForest mx my es)
end

/-- `normalizeCoordinates`: find the minimum `x`/`y` over the whole tree and,
when either is nonzero, shift every element by that minimum.  On the empty
forest the source "shifts" the empty list and returns `[]`, modelled by
returning the forest unchanged. -/
def normalizeCoordinates (es : ParsedForest) : ParsedForest :=
  match forestMinX es, forestMinY es with
  | some mx, some my => if mx ≠ 0 ∨ my ≠ 0 then shiftForest mx my es else es
  | _, _ => es

end PlaywrightLayoutCollector

/-! ## `ElementClassifier` (`element-classifier.ts`) -/

namespace ElementClassifier

/-- The text-shape tags of `determineShapeType`
(regex `^(h[1-6]|p|span|a|label)$`). -/
def textShapeTags : List String :=
  ["h1", "h2", "h3", "h4", "h5", "h6", "p", "span", "a", "label"]

/-- The has-text tags of `classifyElement`
(regex `^(h[1-6]|p|span|a|button|label)$`). -/
def hasTextTags : List String :=
  ["h1", "h2", "h3", "h4", "h5", "h6", "p", "span", "a", "button", "label"]

/-- `isTableElement`: native HTML table tag. -/
def isTableElement (el : ParsedElement) : Bool :=
  el.data.tagName == "table"

/-- `isTableLikeStructure`: a div-based grid of ≥2 rows each with the same
number (≥2) of direct children.  The source's `tableLikePatterns.some(...)`
wraps an inner predicate that ignores the pattern, so over the non-empty
pattern list it reduces to that inner `row.children.some(...)`; and the later
`isRegularStructure` recomputes the already-established equal-column check. -/
def isTableLikeStructure (el : ParsedElement) : Bool :=
  let tag := el.data.tagName
  if tag == "table" || tag == "thead" || tag == "tbody" ||
     tag == "tr" || tag == "th" || tag == "td" then false
  else
    match el.children.toList with
    | [] => false
    | [_] => false
    | first :: restRows =>
      let firstRowChildCount := first.children.length
      if firstRowChildCount < 2 then false
      else
        let rows := first :: restRows
        let allRowsHaveSameColumns :=
          rows.all (fun row => row.children.length == firstRowChildCount)
        if !allRowsHaveSameColumns then false
        else
          let hasTableLikeClasses :=
            rows.any (fun row => row.children.toList.any (fun cell =>
              strContains (strLower cell.data.tagName) "label" ||
              strContains (strLower cell.data.tagName) "value" ||
              strContains (strLower cell.data.tagName) "cell"))
          if hasTableLikeClasses then true
          else
            let isRegularStructure :=
              rows.all (fun row => row.children.length == firstRowChildCount)
            isRegularStructure && decide (2 ≤ rows.length) &&
              decide (2 ≤ firstRowChildCount)

/-- `isCircle`: border-radius mentions `50%` and width ≈ height within
0.1 inch. -/
def isCircle (el : ParsedElement) : Bool :=
  match el.data.styles.borderRadius with
  | none => false
  | some br =>
    if br == "" then false
    else strContains br "50%" &&
      decide (|el.data.position.width - el.data.position.height| < 1/10)

/-- `hasRoundedCorners`: border-radius present, not `"0px"`, and its
`parseFloat` is `> 0`. -/
def hasRoundedCorners (el : ParsedElement) : Bool :=
  match el.data.styles.borderRadius with
  | none => false
  | some br =>
    if br == "" || br == "0px" then false
    else qOptGt (jsParseFloat br) 0

/-- One entry of the per-side border scan of `getVisibleBorderSide`,
carrying the side's raw styles and the implied pointing direction. -/
structure BorderSideInfo where
  side : BorderSide
  width : Option String
  color : Option String
  style : Option String
  direction : String
  deriving DecidableEq, Repr

/-- The four border sides in the scan order of `getVisibleBorderSide`. -/
def borderSideList (st : ComputedStyles) : List BorderSideInfo :=
  [⟨.top, st.borderTopWidth, st.borderTopColor, st.borderTopStyle, "down"⟩,
   ⟨.right, st.borderRightWidth, st.borderRightColor, st.borderRightStyle, "left"⟩,
   ⟨.bottom, st.borderBottomWidth, st.borderBottomColor, st.borderBottomStyle, "up"⟩,
   ⟨.left, st.borderLeftWidth, st.borderLeftColor, st.borderLeftStyle, "right"⟩]

/-- The visibility test applied to one side inside `getVisibleBorderSide`:
all three raw fields present (truthy), `parseFloat(width) > 0`, style is
`solid`, and the color is not one of the transparent forms. -/
def borderSideVisible (b : BorderSideInfo) : Bool :=
  match b.width, b.color, b.style with
  | some w, some c, some s =>
    !(w == "") && !(c == "") && !(s == "") &&
    qOptGt (jsParseFloat w) 0 && (s == "solid") &&
    (!(c == "transparent") && !(c == "rgba(0, 0, 0, 0)") &&
     !(strContains c "transparent"))
  | _, _, _ => false

/-- `getVisibleBorderSide`: the first of the four sides (top, right, bottom,
left) that passes the visibility test, or `none`. -/
def getVisibleBorderSide (el : ParsedElement) : Option BorderSideInfo :=
  (borderSideList el.data.styles).find? borderSideVisible

/-- The background test of `isTriangle`: a present, non-transparent
background color blocks triangle classification. -/
def hasBlockingBackground (bg : Option String) : Bool :=
  match bg with
  | none => false
  | some s => !(s == "") && !(s == "transparent") && !(s == "rgba(0, 0, 0, 0)")

/-- `isTriangle`: near-zero box (both dimensions < 0.05 inch), no blocking
background, and some visible border side (the CSS triangle hack). -/
def isTriangle (el : ParsedElement) : Bool :=
  let w := el.data.position.width
  let h := el.data.position.height
  let isZeroDimensions := decide (w < 1/20) && decide (h < 1/20)
  if !isZeroDimensions then false
  else if hasBlockingBackground el.data.styles.backgroundColor then false
  else (getVisibleBorderSide el).isSome

/-- `determineShapeType`: the classification decision chain, first match
wins. -/
def determineShapeType (el : ParsedElement) : PPTXShapeType :=
  if isTableElement el || isTableLikeStructure el then .table
  else if textShapeTags.contains el.data.tagName then .text
  else if el.data.tagName == "hr" then .line
  else if isCircle el then .ellipse
  else if hasRoundedCorners el then .roundRect
  else if isTriangle el then .triangle
  else .rect

end ElementClassifier

/-! ## Shared color parsing (identical private helpers exist in both
`ElementClassifier` and `StyleConverter`; the machinery is defined once and
wrapped by each class's `convertColor`) -/

/-- `x >= c` where `x` is a possibly-`NaN` integer (`parseInt` result). -/
def intOptGe (o : Option ℤ) (c : ℤ) : Bool :=
  match o with
  | some v => decide (c ≤ v)
  | none => false

/-- Character class `[\d.]`. -/
def isDigitOrDot (c : Char) : Bool := c.isDigit || c == '.'

/-- Argument-part match of the regex
`rgba?\((\d+),\s*(\d+),\s*(\d+)(?:,\s*([\d.]+))?\)` (the part after the
opening parenthesis); returns the three captured channel values. -/
def rgbArgsAt (cs : List Char) : Option (ℕ × ℕ × ℕ) :=
  let d1 := cs.takeWhile Char.isDigit
  if d1.isEmpty then none else
  match cs.drop d1.length with
  | ',' :: r1 =>
    let r1b := r1.dropWhile jsIsSpace
    let d2 := r1b.takeWhile Char.isDigit
    if d2.isEmpty then none else
    match r1b.drop d2.length with
    | ',' :: r2 =>
      let r2b := r2.dropWhile jsIsSpace
      let d3 := r2b.takeWhile Char.isDigit
      if d3.isEmpty then none else
      match r2b.drop d3.length with
      | ')' :: _ => some (digitsVal d1, digitsVal d2, digitsVal d3)
      | ',' :: r3 =>
        let r3b := r3.dropWhile jsIsSpace
        let alpha := r3b.takeWhile isDigitOrDot
        if alpha.isEmpty then none else
        match r3b.drop alpha.length with
        | ')' :: _ => some (digitsVal d1, digitsVal d2, digitsVal d3)
        | _ => none
      | _ => none
    | _ => none
  | _ => none

/-- Try the rgb/rgba regex at the current position (case-sensitive, as in the
source, which uses no `i` flag here). -/
def rgbMatchAt (cs : List Char) : Option (ℕ × ℕ × ℕ) :=
  if ("rgba(".data).isPrefixOf cs then rgbArgsAt (cs.drop 5)
  else if ("rgb(".data).isPrefixOf cs then rgbArgsAt (cs.drop 4)
  else none

/-- `cssColor.match(/rgba?\(...\)/)`: leftmost match anywhere in the
string. -/
def rgbMatchSearch : List Char → Option (ℕ × ℕ × ℕ)
  | [] => none
  | c :: cs =>
    match rgbMatchAt (c :: cs) with
    | some v => some v
    | none => rgbMatchSearch cs

/-- `rgbToHex`: concatenated two-digit hex channels, upper-cased. -/
def rgbToHex (r g b : ℕ) : String :=
  strUpper ⟨channelHex r ++ channelHex g ++ channelHex b⟩

/-- The shared fixed named-color table. -/
def namedColorLookup (cssColor : String) : Option String :=
  let k := strLower cssColor
  if k == "black" then some "000000"
  else if k == "white" then some "FFFFFF"
  else if k == "red" then some "FF0000"
  else if k == "green" then some "00FF00"
  else if k == "blue" then some "0000FF"
  else if k == "yellow" then some "FFFF00"
  else if k == "cyan" then some "00FFFF"
  else if k == "magenta" then some "FF00FF"
  else none

/-- The common body of both classes' `convertColor`: `undefined` for falsy /
transparent input, else the rgb()/rgba() regex, else `#hex` upper-cased with
the `#` stripped, else the named-color table. -/
def convertColorFn (cssColor : String) : Option String :=
  if cssColor == "" || cssColor == "transparent" || cssColor == "rgba(0, 0, 0, 0)" then none
  else
    match rgbMatchSearch cssColor.data with
    | some (r, g, b) => some (rgbToHex r g b)
    | none =>
      match cssColor.data with
      | '#' :: rest => some (strUpper ⟨rest⟩)
      | _ => namedColorLookup cssColor

/-! ## `StyleConverter` (`style-converter.ts`) -/

namespace StyleConverter

/-- `StyleConverter.convertColor`. -/
def convertColor (cssColor : String) : Option String := convertColorFn cssColor

/-- `convertFontSize`: `Math.round(parseFloat(px) * 0.75)`; `none` models the
`NaN` produced on an unparsable size. -/
def convertFontSize (fontSize : String) : Option ℚ :=
  (jsParseFloat fontSize).map (fun px => jsRound (px * (3/4)))

/-- `convertFontFamily`: strip quote characters, take the first
comma-separated entry, trim. -/
def convertFontFamily (fontFamily : String) : String :=
  strTrim ⟨(fontFamily.data.filter
    (fun c => !(c == Char.ofNat 39 || c == '"'))).takeWhile (fun c => !(c == ','))⟩

/-- `isBold`. -/
def isBold (fontWeight : String) : Bool :=
  let weight := strLower fontWeight
  weight == "bold" || weight == "bolder" || intOptGe (jsParseInt weight) 600

/-- `convertTextAlign`: center/right/justify pass through, anything else
becomes left. -/
def convertTextAlign (textAlign : String) : AlignKind :=
  let a := strLower textAlign
  if a == "center" then .center
  else if a == "right" then .right
  else if a == "justify" then .justify
  else .left

/-- `convertBorderWidth`: px→pt at 0.75, rounded, floored at 1pt.  An
unparsable width (JS `NaN`) cannot reach this function — both call sites
guard with `parseFloat(width) > 0` or pass the `"1px"` fallback — so the
`getD 0` branch is dead. -/
def convertBorderWidth (borderWidth : String) : ℚ :=
  max 1 (jsRound ((jsParseFloat borderWidth).getD 0 * (3/4)))

/-- `convertBorderStyle`. -/
def convertBorderStyle (borderStyle : String) : DashType :=
  let style := strLower borderStyle
  if style == "dashed" then .dash
  else if style == "dotted" then .dot
  else .solid

/-- `isGradient`: the background value mentions a gradient function. -/
def isGradient (cssValue : String) : Bool := strContains cssValue "gradient("

/-- JS `\w` word characters (for the `\b` boundaries of the color-token
regex). -/
def isWordChar (c : Char) : Bool := c.isAlpha || c.isDigit || c == '_'

/-- Hex digit characters (`[a-fA-F0-9]`). -/
def isHexDigitChar (c : Char) : Bool :=
  c.isDigit || (let l := c.toLower; 'a' ≤ l && l ≤ 'f')

/-- Case-insensitive literal prefix test (the color regex carries the `i`
flag); `needle` is given lower-case. -/
def ciPrefix (needle : String) (cs : List Char) : Bool :=
  needle.data.isPrefixOf (cs.map Char.toLower)

/-- The named colors of the gradient color-token regex, in alternation
order. -/
def gradientNamedColors : List String :=
  ["red", "blue", "green", "yellow", "white", "black",
   "purple", "orange", "pink", "gray", "grey"]

/-- Match one alternative of
`(rgba?\([^)]+\)|#[a-fA-F0-9]{3,8}|\b(?:red|blue|...)\b)` at the current
position; `prevIsWord` says whether the preceding character is a word
character (for the leading `\b`).  Returns the length of the color part of
the match. -/
def matchColorPartAt (prevIsWord : Bool) (cs : List Char) : Option ℕ :=
  -- alternative 1: rgba?\([^)]+\)
  let rgbTag : Option ℕ :=
    if ciPrefix "rgba(" cs then some 5
    else if ciPrefix "rgb(" cs then some 4
    else none
  match rgbTag with
  | some tagLen =>
    let rest := cs.drop tagLen
    let inner := rest.takeWhile (fun c => !(c == ')'))
    if inner.isEmpty then none
    else
      match rest.drop inner.length with
      | ')' :: _ => some (tagLen + inner.length + 1)
      | _ => none
  | none =>
    -- alternative 2: #[a-fA-F0-9]{3,8}
    match cs with
    | '#' :: rest =>
      let run := rest.takeWhile isHexDigitChar
      let k := min run.length 8
      if 3 ≤ k then some (1 + k) else none
    | _ =>
      -- alternative 3: \b(?:named)\b
      if prevIsWord then none
      else
        gradientNamedColors.findSome? (fun name =>
          if ciPrefix name cs then
            match (cs.drop name.data.length).head? with
            | some c => if isWordChar c then none else some name.data.length
            | none => some name.data.length
          else none)

/-- Full-match length at the current position, including the optional
non-captured `(?:\s+\d+%)?` suffix. -/
def matchColorAt (prevIsWord : Bool) (cs : List Char) : Option ℕ :=
  (matchColorPartAt prevIsWord cs).map (fun partLen =>
    let rest := cs.drop partLen
    let ws := rest.takeWhile jsIsSpace
    if ws.isEmpty then partLen
    else
      let afterWs := rest.drop ws.length
      let ds := afterWs.takeWhile Char.isDigit
      if ds.isEmpty then partLen
      else
        match afterWs.drop ds.length with
        | '%' :: _ => partLen + ws.length + ds.length + 1
        | _ => partLen)

/-- Global regex scan (`gradient.match(colorRegex)`) combined with the
per-match `match.split(/\s+/)[0]`: fuelled left-to-right scan collecting, for
each non-overlapping leftmost match, its first whitespace-free chunk.  The
fuel (the string length) is ample since every match consumes ≥ 1
character. -/
def extractGradientColorsAux : ℕ → Bool → List Char → List String
  | 0, _, _ => []
  | _ + 1, _, [] => []
  | fuel + 1, prevW, c :: cs =>
    match matchColorAt prevW (c :: cs) with
    | some len =>
      let matched := (c :: cs).take len
      let tok : String := ⟨matched.takeWhile (fun ch => !jsIsSpace ch)⟩
      tok :: extractGradientColorsAux fuel
        (isWordChar ((matched.getLast?).getD ' ')) ((c :: cs).drop len)
    | none => extractGradientColorsAux fuel (isWordChar c) cs

/-- `extractGradientColors`: ordered color tokens of a gradient value (the
`filter(Boolean)` of the source keeps every token, since a match never starts
with whitespace; it is carried over faithfully). -/
def extractGradientColors (gradient : String) : List String :=
  (extractGradientColorsAux gradient.data.length false gradient.data).filter
    (fun t => !(t == ""))

/-- Leftmost match of `/(\d+)deg/`: the value of the first maximal digit run
immediately followed by `deg`. -/
def findDegMatch : List Char → Option ℕ
  | [] => none
  | c :: cs =>
    if c.isDigit then
      let run := (c :: cs).takeWhile Char.isDigit
      if ("deg".data).isPrefixOf ((c :: cs).drop run.length) then some (digitsVal run)
      else findDegMatch cs
    else findDegMatch cs

/-- `extractGradientAngle`: explicit degrees win; otherwise the named
directions are probed by substring containment in source order, with the
plain `to top`/`to bottom` checks placed before the diagonal ones. -/
def extractGradientAngle (gradient : String) : ℚ :=
  match findDegMatch gradient.data with
  | some n => (n : ℚ)
  | none =>
    if strContains gradient "to right" then 90
    else if strContains gradient "to left" then 270
    else if strContains gradient "to bottom" then 180
    else if strContains gradient "to top" then 0
    else if strContains gradient "to bottom right" then 135
    else if strContains gradient "to bottom left" then 225
    else if strContains gradient "to top right" then 45
    else if strContains gradient "to top left" then 315
    else 0

/-- `convertGradient`: gradient kind detection, color-stop extraction with
evenly spread positions `(i / (n-1)) * 100`, and the linear-gradient angle.
(For a single-color gradient the source computes `0/0 = NaN` as the position;
in `ℚ` this degenerate division yields `0`.) -/
def convertGradient (cssGradient : String) : Option GradientFill :=
  let isLinear := strContains cssGradient "linear-gradient"
  let isRadial := strContains cssGradient "radial-gradient"
  if !isLinear && !isRadial then none
  else
    let colors := extractGradientColors cssGradient
    if colors.isEmpty then none
    else
      let angle := if isLinear then extractGradientAngle cssGradient else 0
      some
        { colors := ((List.range colors.length).zip colors).map (fun ic =>
            { color := jsOrDefault (convertColor ic.2) "000000",
              position := ((ic.1 : ℚ) / ((colors.length : ℚ) - 1)) * 100 }),
          angle := angle }

/-- The raw width/color/style triple of one border side. -/
def sideRaw (st : ComputedStyles) : BorderSide → Option String × Option String × Option String
  | .top => (st.borderTopWidth, st.borderTopColor, st.borderTopStyle)
  | .right => (st.borderRightWidth, st.borderRightColor, st.borderRightStyle)
  | .bottom => (st.borderBottomWidth, st.borderBottomColor, st.borderBottomStyle)
  | .left => (st.borderLeftWidth, st.borderLeftColor, st.borderLeftStyle)

/-- `checkBorder` inside `extractSingleSidedBorders`: emit a per-side entry
when the side's width parses positive, its style is present and not `none`,
and its color converts to a truthy value. -/
def checkBorder (st : ComputedStyles) (pos : ElementPosition) (side : BorderSide) :
    List SingleSidedBorder :=
  match sideRaw st side with
  | (some w, some c, some s) =>
    if !(w == "") && qOptGt (jsParseFloat w) 0 && !(s == "") && !(s == "none") && !(c == "") then
      -- `if (convertedColor) push(...)`: a truthy converted color is some
      -- non-empty string, recovered by `getD`
      if jsTruthy (convertColor c) then
        [⟨side, (convertColor c).getD "", convertBorderWidth w, convertBorderStyle s, pos⟩]
      else []
    else []
  | _ => []

/-- `extractSingleSidedBorders`: the four sides probed in top, right, bottom,
left order. -/
def extractSingleSidedBorders (st : ComputedStyles) (pos : ElementPosition) :
    List SingleSidedBorder :=
  checkBorder st pos .top ++ checkBorder st pos .right ++
    checkBorder st pos .bottom ++ checkBorder st pos .left

/-- The per-side presence test of `hasUniformBorder`: truthy width with
`parseFloat > 0` and truthy style other than `"none"`. -/
def hasSideBorder (w s : Option String) : Bool :=
  match w, s with
  | some w, some s =>
    !(w == "") && qOptGt (jsParseFloat w) 0 && !(s == "") && !(s == "none")
  | _, _ => false

/-- `hasUniformBorder`: all four sides present and pairwise equal raw width,
style and color strings. -/
def hasUniformBorder (st : ComputedStyles) : Bool :=
  let hasTop := hasSideBorder st.borderTopWidth st.borderTopStyle
  let hasRight := hasSideBorder st.borderRightWidth st.borderRightStyle
  let hasBottom := hasSideBorder st.borderBottomWidth st.borderBottomStyle
  let hasLeft := hasSideBorder st.borderLeftWidth st.borderLeftStyle
  if !hasTop && !hasRight && !hasBottom && !hasLeft then false
  else if !(hasTop && hasRight && hasBottom && hasLeft) then false
  else
    (st.borderTopWidth == st.borderRightWidth &&
     st.borderRightWidth == st.borderBottomWidth &&
     st.borderBottomWidth == st.borderLeftWidth) &&
    (st.borderTopStyle == st.borderRightStyle &&
     st.borderRightStyle == st.borderBottomStyle &&
     st.borderBottomStyle == st.borderLeftStyle) &&
    (st.borderTopColor == st.borderRightColor &&
     st.borderRightColor == st.borderBottomColor &&
     st.borderBottomColor == st.borderLeftColor)

/-- `convertStyles`: the whole CSS → `PPTXStyles` mapping (fills incl.
gradients, text attributes, the uniform-vs-per-side border rule, opacity). -/
def convertStyles (st : ComputedStyles) (pos : ElementPosition) : PPTXStyles :=
  let fill : Option FillValue :=
    match st.backgroundColor with
    | some bg =>
      if bg == "" then none
      else if isGradient bg then (convertGradient bg).map FillValue.gradient
      else
        match convertColor bg with
        | some c => if c == "" || c == "transparent" then none else some (.color c)
        | none => none
    | none => none
  let colorOut : Option String :=
    match st.color with
    | some c => if c == "" then none else convertColor c
    | none => none
  let fontSize : Option ℚ :=
    match st.fontSize with
    | some fs => if fs == "" then none else convertFontSize fs
    | none => none
  let fontFace : Option String :=
    match st.fontFamily with
    | some ff => if ff == "" then none else some (convertFontFamily ff)
    | none => none
  let bold : Option Bool :=
    match st.fontWeight with
    | some fw => if fw == "" then none else some (isBold fw)
    | none => none
  let italic : Option Bool :=
    if st.fontStyle == some "italic" then some true else none
  let align : Option AlignKind :=
    match st.textAlign with
    | some ta => if ta == "" then none else some (convertTextAlign ta)
    | none => none
  let lineSsb : Option LineStyle × Option (List SingleSidedBorder) :=
    if hasUniformBorder st then
      let borderColor := jsOrDefault (jsOrOpt st.borderColor st.borderTopColor) "#000000"
      (some { color := jsOrDefault (convertColor borderColor) "000000",
              width := convertBorderWidth
                (jsOrDefault (jsOrOpt st.borderTopWidth st.borderWidth) "1px"),
              dashType := convertBorderStyle
                (jsOrDefault (jsOrOpt st.borderTopStyle st.borderStyle) "solid") },
       none)
    else
      let ssb := extractSingleSidedBorders st pos
      (none, if ssb.isEmpty then none else some ssb)
  let fillOpacity : Option ℚ :=
    match st.opacity with
    | some o =>
      if o == "" then none
      else if qOptLt (jsParseFloat o) 1 then jsParseFloat o else none
    | none => none
  { fill := fill, fillOpacity := fillOpacity, line := lineSsb.1,
    singleSidedBorders := lineSsb.2, fontFace := fontFace, fontSize := fontSize,
    color := colorOut, bold := bold, italic := italic, align := align }

end StyleConverter

namespace ElementClassifier

/-- `ElementClassifier.convertColor` (a verbatim copy of the style
converter's private helper exists on this class). -/
def convertColor (cssColor : String) : Option String := convertColorFn cssColor

/-- `isHeaderCell`: label/header/th in the (lower-cased) tag, or a bold font
weight. -/
def isHeaderCell (cell : ParsedElement) : Bool :=
  let className := strLower cell.data.tagName
  if strContains className "label" || strContains className "header" ||
     strContains className "th" then true
  else
    match cell.data.styles.fontWeight with
    | some fw =>
      if fw == "" then false
      else fw == "bold" || fw == "700" || intOptGe (jsParseInt fw) 600
    | none => false

/-- `extractCellStyles`: the basic style subset carried on a table cell. -/
def extractCellStyles (cell : ParsedElement) : CellStyles :=
  let st := cell.data.styles
  let fill : Option String :=
    match st.backgroundColor with
    | some bg => if bg == "" then none else convertColor bg
    | none => none
  let colorOut : Option String :=
    match st.color with
    | some c => if c == "" then none else convertColor c
    | none => none
  let fontSize : Option ℚ :=
    match st.fontSize with
    | some fs =>
      if fs == "" then none
      else (jsParseFloat fs).map (fun px => jsRound (px * (3/4)))
    | none => none
  let fontFace : Option String :=
    match st.fontFamily with
    | some ff =>
      if ff == "" then none
      else some (strTrim ⟨(ff.data.filter
        (fun c => !(c == Char.ofNat 39 || c == '"'))).takeWhile (fun c => !(c == ','))⟩)
    | none => none
  let bold : Option Bool :=
    match st.fontWeight with
    | some fw =>
      if fw == "" then none
      else
        let weight := strLower fw
        some (weight == "bold" || weight == "bolder" || intOptGe (jsParseInt weight) 600)
    | none => none
  let italic : Option Bool :=
    if st.fontStyle == some "italic" then some true else none
  let align : Option String :=
    match st.textAlign with
    | some ta =>
      if ta == "" then none
      else
        let a := strLower ta
        if a == "center" || a == "right" || a == "justify" then some a else some "left"
    | none => none
  let line : Option LineStyle :=
    if jsTruthy st.borderWidth || jsTruthy st.borderTopWidth then
      let borderWidth := jsOrDefault (jsOrOpt st.borderTopWidth st.borderWidth) "1px"
      let borderColor := jsOrDefault (jsOrOpt st.borderTopColor st.borderColor) "#000000"
      let borderStyle := jsOrDefault (jsOrOpt st.borderTopStyle st.borderStyle) "solid"
      some { color := jsOrDefault (convertColor borderColor) "000000",
             width := max 1 (jsRound ((jsParseFloat borderWidth).getD 0 * (3/4))),
             dashType :=
               if borderStyle == "dashed" then .dash
               else if borderStyle == "dotted" then .dot
               else .solid }
    else none
  { fill := fill, color := colorOut, fontSize := fontSize, fontFace := fontFace,
    bold := bold, italic := italic, align := align, line := line }

/-- Accumulator of the row-collection loops of `buildTableDataFromHTML`. -/
structure TableScanAcc where
  rows : List TableRow
  numCols : ℕ
  hasHeader : Bool
  deriving Repr

/-- The thead/tbody discovery loop over the table's children: a later
`thead`/`tbody` overwrites an earlier one; a direct `tr` synthesizes a
one-row `tbody` only while no `tbody` has been seen. -/
def theadTbody (children : List ParsedElement) :
    Option ParsedElement × Option ParsedElement :=
  children.foldl (fun acc child =>
    if child.data.tagName == "thead" then (some child, acc.2)
    else if child.data.tagName == "tbody" then (acc.1, some child)
    else if child.data.tagName == "tr" then
      match acc.2 with
      | none =>
        (acc.1, some (ParsedElement.mk { child.data with tagName := "tbody" }
          (.cons child .nil)))
      | some _ => acc
    else acc) (none, none)

/-- Cells of one `thead` row: `th`/`td` children, all marked headers. -/
def theadCells (tr : ParsedElement) : List TableCell :=
  tr.children.toList.filterMap (fun cell =>
    if cell.data.tagName == "th" || cell.data.tagName == "td" then
      some { text := strTrim cell.data.textContent, isHeader := true,
             styles := extractCellStyles cell }
    else none)

/-- The `thead` processing loop. -/
def processThead (thead : ParsedElement) (acc0 : TableScanAcc) : TableScanAcc :=
  thead.children.toList.foldl (fun acc tr =>
    if tr.data.tagName == "tr" then
      let cells := theadCells tr
      if cells.isEmpty then acc
      else { rows := acc.rows ++ [⟨cells⟩],
             numCols := max acc.numCols cells.length, hasHeader := true }
    else acc) acc0

/-- Cells of one `tbody` row; a cell is a header if it is a `th`, or if no
header was seen yet and no row has been collected. -/
def tbodyCells (hasHeader : Bool) (rowsSoFar : ℕ) (tr : ParsedElement) : List TableCell :=
  tr.children.toList.filterMap (fun cell =>
    if cell.data.tagName == "th" || cell.data.tagName == "td" then
      some { text := strTrim cell.data.textContent,
             isHeader := cell.data.tagName == "th" || (!hasHeader && rowsSoFar == 0),
             styles := extractCellStyles cell }
    else none)

/-- Mark every cell of the first row as a header. -/
def markFirstRowHeader (rows : List TableRow) : List TableRow :=
  match rows with
  | [] => []
  | r :: rest => ⟨r.cells.map (fun c => { c with isHeader := true })⟩ :: rest

/-- The `tbody` processing loop. -/
def processTbody (tbody : ParsedElement) (acc0 : TableScanAcc) : TableScanAcc :=
  tbody.children.toList.foldl (fun acc tr =>
    if tr.data.tagName == "tr" then
      let cells := tbodyCells acc.hasHeader acc.rows.length tr
      if cells.isEmpty then acc
      else
        let rows1 := acc.rows ++ [⟨cells⟩]
        let numCols1 := max acc.numCols cells.length
        if !acc.hasHeader && rows1.length == 1 then
          { rows := markFirstRowHeader rows1, numCols := numCols1, hasHeader := true }
        else { rows := rows1, numCols := numCols1, hasHeader := acc.hasHeader }
    else acc) acc0

/-- The `while (row.cells.length < numCols) push` padding loop: appended
cells copy the first cell's header flag (the first cell never changes during
the loop, and a row is only ever padded when it already has a cell). -/
def padCells (cells : List TableCell) (numCols : ℕ) : List TableCell :=
  cells ++ List.replicate (numCols - cells.length)
    { text := "", isHeader := ((cells.head?).map (fun c => c.isHeader)).getD false,
      styles := {} }

/-- `buildTableDataFromHTML`. -/
def buildTableDataFromHTML (tableElement : ParsedElement) : Option TableData :=
  let tt := theadTbody tableElement.children.toList
  let acc0 : TableScanAcc := ⟨[], 0, false⟩
  let acc1 := match tt.1 with | some th => processThead th acc0 | none => acc0
  let acc2 := match tt.2 with | some tb => processTbody tb acc1 | none => acc1
  if acc2.rows.isEmpty then none
  else some { rows := acc2.rows.map (fun r => ⟨padCells r.cells acc2.numCols⟩),
              numCols := acc2.numCols }

/-- Cells of one pseudo-table row: every child of the row element is a cell;
the whole first row (index 0) is header-flagged. -/
def pseudoRow (rowIndex : ℕ) (rowElement : ParsedElement) : List TableCell :=
  rowElement.children.toList.map (fun cellElement =>
    { text := strTrim cellElement.data.textContent,
      isHeader := rowIndex == 0 || isHeaderCell cellElement,
      styles := extractCellStyles cellElement })

/-- `buildTableDataFromPseudoTable`. -/
def buildTableDataFromPseudoTable (container : ParsedElement) : Option TableData :=
  let step := container.children.toList.enum.foldl
    (fun (acc : List TableRow × ℕ) irow =>
      let cells := pseudoRow irow.1 irow.2
      if cells.isEmpty then acc
      else (acc.1 ++ [⟨cells⟩], max acc.2 cells.length)) ([], 0)
  match step.1 with
  | [] => none
  | r0 :: rest =>
    let rows :=
      if r0.cells.any (fun c => c.isHeader) then markFirstRowHeader (r0 :: rest)
      else r0 :: rest
    some { rows := rows.map (fun r => ⟨padCells r.cells step.2⟩), numCols := step.2 }

/-- `buildTableData`: dispatch on native vs pseudo table. -/
def buildTableData (element : ParsedElement) : Option TableData :=
  if element.data.tagName == "table" then buildTableDataFromHTML element
  else buildTableDataFromPseudoTable element

mutual
/-- `classifyElement`: one parsed element to one drawing primitive; a
`table` node gets its `tableData` and drops its children from the general
walk. -/
def classifyElement : ParsedElement → PPTXElement
  | .mk d cs =>
    let el := ParsedElement.mk d cs
    let shapeType := determineShapeType el
    let hasText := !(strTrim d.textContent == "") || hasTextTags.contains d.tagName
    let base : PPTXData :=
      { id := d.id, type := shapeType, position := d.position,
        styles := {}, text := if hasText then some d.textContent else none,
        tableData := none }
    if shapeType == .table then
      .mk { base with tableData := buildTableData el } .nil
    else
      -- `children.length > 0 ? this.classify(children) : undefined`; the
      -- empty forest models the `undefined` children array
      .mk base (classifyForest cs)
/-- `classify` over a list of elements. -/
def classifyForest : ParsedForest → PPTXForest
  | .nil => .nil
  | .cons e es => .cons (classifyElement e) (classifyForest es)
end

end ElementClassifier

/-! ## `ConversionPipeline` (`conversion-pipeline.ts`) -/

namespace ConversionPipeline

/-- The recognized configuration record (only the fields the embedded steps
read). -/
structure ConversionOptions where
  slideWidth : Option ℚ := none
  slideHeight : Option ℚ := none
  deriving Repr

/-- `options.slideWidth || default`: JS `||` treats `0` (and `NaN`,
unrepresentable here) as falsy. -/
def qOrDefault (o : Option ℚ) (d : ℚ) : ℚ :=
  match o with
  | some v => if v = 0 then d else v
  | none => d

/-- `shouldFilterElement`: the decorative-wrapper policy.  It reads only the
per-node payload (tag, box, styles), so it is modelled on `ParsedData`. -/
def shouldFilterElement (el : ParsedData) (slideWidth slideHeight : ℚ) : Bool :=
  if el.tagName == "body" || el.tagName == "html" then true
  else
    -- 20% tolerance, then the 1.5× "significantly exceeds" test per axis
    let exceedsWidth := decide (el.position.width > slideWidth * (1 + 1/5))
    let exceedsHeight := decide (el.position.height > slideHeight * (1 + 1/5))
    if exceedsWidth && decide (el.position.width > slideWidth * (3/2)) then true
    else if exceedsHeight && decide (el.position.height > slideHeight * (3/2)) then true
    else
      let isHuge := decide (el.position.width > slideWidth * 2) ||
        decide (el.position.height > slideHeight * 2)
      if isHuge then true
      else
        let borderRadius := jsOrDefault el.styles.borderRadius "0px"
        let radiusValue := jsParseFloat borderRadius
        let bgColor := jsOrDefault el.styles.backgroundColor ""
        let isGrayish := strContains bgColor "rgb(245" || strContains bgColor "rgb(240" ||
          strContains bgColor "rgb(250" || strContains bgColor "#f5f5f5" ||
          strContains bgColor "#f0f0f0"
        if qOptGt radiusValue 100 && isGrayish &&
           (decide (el.position.width > slideWidth * (4/5)) ||
            decide (el.position.height > slideHeight * (4/5))) then true
        else qOptGt radiusValue 500

/-- The fixed slide width used by `filterDecorativeElements` (13.333 in). -/
def filterSlideWidth : ℚ := 13333/1000

/-- The fixed slide height used by `filterDecorativeElements` (7.5 in). -/
def filterSlideHeight : ℚ := 15/2

mutual
/-- `processElement` inside `filterDecorativeElements`: children are
processed first; a filtered node is replaced by its processed children, a
kept node keeps them. -/
def processElement : ParsedElement → ParsedForest
  | .mk d cs =>
    let processedChildren := processForest cs
    if shouldFilterElement d filterSlideWidth filterSlideHeight then processedChildren
    else .cons (.mk d processedChildren) .nil
/-- `flatMap` of `processElement` over a forest. -/
def processForest : ParsedForest → ParsedForest
  | .nil => .nil
  | .cons e es => ParsedForest.append (processElement e) (processForest es)
end

/-- `filterDecorativeElements`. -/
def filterDecorativeElements (elements : ParsedForest) : ParsedForest :=
  processForest elements

mutual
/-- `filterSkipElements` on one element: a `skip` node is elided and its
(filtered) children are hoisted. -/
def filterSkipElement : PPTXElement → PPTXForest
  | .mk d cs =>
    if d.type == .skip then filterSkipForest cs
    else .cons (.mk d (filterSkipForest cs)) .nil
/-- `filterSkipElements` on a forest. -/
def filterSkipForest : PPTXForest → PPTXForest
  | .nil => .nil
  | .cons e es => PPTXForest.append (filterSkipElement e) (filterSkipForest es)
end

/-- `filterSkipElements`. -/
def filterSkipElements (elements : PPTXForest) : PPTXForest :=
  filterSkipForest elements

mutual
/-- `countElements` on one element: non-`skip` nodes count, all children are
visited. -/
def countElement : PPTXElement → ℕ
  | .mk d cs => (if d.type == .skip then 0 else 1) + countForest cs
/-- `countElements` on a forest. -/
def countForest : PPTXForest → ℕ
  | .nil => 0
  | .cons e es => countElement e + countForest es
end

/-- `countElements`. -/
def countElements (elements : PPTXForest) : ℕ := countForest elements

/-- The element-material part of `convert` on the browser-layout path, from
the collected layout tree up to the classified element set handed to the
(external) document emitter: decorative filtering, the empty-input check,
classification, skip filtering, and the no-valid-elements check.  A thrown
`Error` is an `Except.error` carrying the message. -/
def convert (browserElements : ParsedForest) : Except String PPTXForest :=
  let parsedElements := filterDecorativeElements browserElements
  if parsedElements.length == 0 then
    Except.error "No elements to convert. All elements were filtered out or HTML is empty."
  else
    let classified := ElementClassifier.classifyForest parsedElements
    let classified2 := filterSkipElements classified
    if countElements classified2 == 0 then
      Except.error "No valid elements to convert. All elements were marked as skip or invalid."
    else Except.ok classified2

mutual
/-- The node payloads visited by the bounds/scaling traversals: every node,
except that a `table` node's children are not descended into. -/
def visitedDataElem : PPTXElement → List PPTXData
  | .mk d cs => d :: (if d.type == .table then [] else visitedDataForest cs)
/-- Visited payloads of a forest. -/
def visitedDataForest : PPTXForest → List PPTXData
  | .nil => []
  | .cons e es => visitedDataElem e ++ visitedDataForest es
end

/-- The running min/max accumulator of `calculateContentBounds`. -/
structure ContentBounds where
  minX : ℚ
  minY : ℚ
  maxX : ℚ
  maxY : ℚ
  deriving DecidableEq, Repr

/-- `calculateContentBounds`: union bounding box over the visited nodes
(`null` on an empty element set, where the accumulators stay infinite). -/
def calculateContentBounds (elements : PPTXForest) : Option ContentBounds :=
  match (visitedDataForest elements).map (fun d => d.position) with
  | [] => none
  | r :: rs =>
    some (rs.foldl
      (fun b p =>
        ⟨min b.minX p.x, min b.minY p.y, max b.maxX (p.x + p.width),
         max b.maxY (p.y + p.height)⟩)
      ⟨r.x, r.y, r.x + r.width, r.y + r.height⟩)

/-- The per-node update of `scaleElement`: position scaled about the origin,
dimensions scaled, a truthy (nonzero) font size scaled, rounded to whole
points and floored at 6pt. -/
def scaleData (scale originX originY : ℚ) (d : PPTXData) : PPTXData :=
  let pos := d.position
  let newPos : ElementPosition :=
    { x := originX + (pos.x - originX) * scale,
      y := originY + (pos.y - originY) * scale,
      width := pos.width * scale,
      height := pos.height * scale }
  let newStyles :=
    match d.styles.fontSize with
    | some f =>
      if f ≠ 0 then { d.styles with fontSize := some (max 6 (jsRound (f * scale))) }
      else d.styles
    | none => d.styles
  { d with position := newPos, styles := newStyles }

mutual
/-- `scaleElement` inside `applyScalingToElements`: the node payload is
updated by `scaleData`; children of a `table` node are not descended into. -/
def scaleElement (scale originX originY : ℚ) : PPTXElement → PPTXElement
  | .mk d cs =>
    .mk (scaleData scale originX originY d)
      (if d.type == .table then cs else scaleForest scale originX originY cs)
/-- Scaling over a forest. -/
def scaleForest (scale originX originY : ℚ) : PPTXForest → PPTXForest
  | .nil => .nil
  | .cons e es =>
    .cons (scaleElement scale originX originY e) (scaleForest scale originX originY es)
end

/-- `applyScalingToElements`. -/
def applyScalingToElements (elements : PPTXForest) (scale originX originY : ℚ) :
    PPTXForest :=
  scaleForest scale originX originY elements

/-- `calculateAndApplyScaling`: the auto-scale-to-fit step.  Returns the
scale factor together with the (functionally updated, in the source
in-place-mutated) element tree. -/
def calculateAndApplyScaling (elements : PPTXForest) (options : ConversionOptions) :
    ℚ × PPTXForest :=
  let slideWidth := qOrDefault options.slideWidth (13333/1000)
  let slideHeight := qOrDefault options.slideHeight (15/2)
  match calculateContentBounds elements with
  | none => (1, elements)
  | some b =>
    let contentWidth := b.maxX - b.minX
    let contentHeight := b.maxY - b.minY
    let scaleX := if contentWidth > 0 then min 1 (slideWidth / contentWidth) else 1
    let scaleY := if contentHeight > 0 then min 1 (slideHeight / contentHeight) else 1
    let scale := max (min scaleX scaleY) (1/2)
    if scale < 1 then
      (scale, applyScalingToElements elements scale b.minX b.minY)
    else (scale, elements)

mutual
/-- Leaf nodes (no children) carrying non-empty text, of one element. -/
def textLeavesElem : ParsedElement → List ParsedData
  | .mk d .nil => if d.textContent == "" then [] else [d]
  | .mk _ (.cons c cs) => textLeavesForest (.cons c cs)
/-- Text-bearing leaves of a forest, in document order. -/
def textLeavesForest : ParsedForest → List ParsedData
  | .nil => []
  | .cons e es => textLeavesElem e ++ textLeavesForest es
end

mutual
/-- Text-bearing leaves that do not themselves satisfy the decorative filter
predicate. -/
def keptTextLeavesElem : ParsedElement → List ParsedData
  | .mk d .nil =>
    if d.textContent == "" || shouldFilterElement d filterSlideWidth filterSlideHeight
    then [] else [d]
  | .mk _ (.cons c cs) => keptTextLeavesForest (.cons c cs)
/-- Kept text-bearing leaves of a forest. -/
def keptTextLeavesForest : ParsedForest → List ParsedData
  | .nil => []
  | .cons e es => keptTextLeavesElem e ++ keptTextLeavesForest es
end

end ConversionPipeline

namespace StyleConverter

/-- The per-side emission condition of `checkBorder`, factored out: raw
width/color/style all present, width parses positive, style is not `none`,
and the color converts to a truthy value. -/
def sideVisible (st : ComputedStyles) (side : BorderSide) : Bool :=
  match sideRaw st side with
  | (some w, some c, some s) =>
    !(w == "") && qOptGt (jsParseFloat w) 0 && !(s == "") && !(s == "none") &&
    !(c == "") && jsTruthy (convertColor c)
  | _ => false

end StyleConverter

/-! ## Concrete example inputs for witnesses and counterexamples -/

/-- A 2×2 div grid (each row a div with two div cells carrying text). -/
def exGridCell (i : String) (t : String) : ParsedElement :=
  .mk ⟨i, "div", t, {}, ⟨0, 0, 1, 1⟩⟩ .nil

/-- One row of the example grid. -/
def exGridRow (i : String) : ParsedElement :=
  .mk ⟨i, "div", "", {}, ⟨0, 0, 2, 1⟩⟩
    (.cons (exGridCell (i ++ "a") "A") (.cons (exGridCell (i ++ "b") "B") .nil))

/-- The 2×2 example grid container. -/
def exGrid : ParsedElement :=
  .mk ⟨"g", "div", "", {}, ⟨0, 0, 2, 2⟩⟩
    (.cons (exGridRow "r1") (.cons (exGridRow "r2") .nil))

/-- A zero-size div with two solid, colored borders (top and bottom): the
classifier still calls this a triangle although two sides are visible. -/
def exTwoBorderTriangle : ParsedElement :=
  .mk ⟨"t1", "div", "",
    { borderTopWidth := some "10px", borderTopColor := some "red",
      borderTopStyle := some "solid",
      borderBottomWidth := some "10px", borderBottomColor := some "blue",
      borderBottomStyle := some "solid" },
    ⟨0, 0, 0, 0⟩⟩ .nil

/-- A text-bearing leaf paragraph whose box (30in × 2in) exceeds twice the
slide width, so the decorative filter removes it together with its text. -/
def exHugeTextLeaf : ParsedElement :=
  .mk ⟨"hp", "p", "hi", {}, ⟨0, 0, 30, 2⟩⟩ .nil

/-- Scenario C circle: border-radius 50%, 100px × 100px box. -/
def exCircleDiv : ParsedElement :=
  .mk ⟨"c1", "div", "", { borderRadius := some "50%" }, ⟨0, 0, 100/96, 100/96⟩⟩ .nil

/-- Scenario C oval: border-radius 50%, 100px × 50px box. -/
def exOvalDiv : ParsedElement :=
  .mk ⟨"c2", "div", "", { borderRadius := some "50%" }, ⟨0, 0, 100/96, 50/96⟩⟩ .nil

/-- Scenario D styles: only `border-bottom: 4px solid red`. -/
def exBottomOnlyStyles : ComputedStyles :=
  { borderBottomWidth := some "4px", borderBottomStyle := some "solid",
    borderBottomColor := some "red" }

/-- A uniform 2px solid black border on all four sides. -/
def exUniformStyles : ComputedStyles :=
  { borderTopWidth := some "2px", borderRightWidth := some "2px",
    borderBottomWidth := some "2px", borderLeftWidth := some "2px",
    borderTopStyle := some "solid", borderRightStyle := some "solid",
    borderBottomStyle := some "solid", borderLeftStyle := some "solid",
    borderTopColor := some "black", borderRightColor := some "black",
    borderBottomColor := some "black", borderLeftColor := some "black" }

/-- A 20in × 10in rectangle at the origin (Scenario E content). -/
def exWideBox : PPTXElement :=
  .mk ⟨"b1", .rect, ⟨0, 0, 20, 10⟩, { fontSize := some 10 }, none, none⟩ .nil

/-- A small box that fits the slide. -/
def exFitBox : PPTXElement :=
  .mk ⟨"b2", .rect, ⟨1, 1, 5, 5⟩, {}, none, none⟩ .nil

/-- Two offset boxes for the normalization example. -/
def exOffsetA : ParsedElement := .mk ⟨"a", "div", "", {}, ⟨3, 4, 1, 1⟩⟩ .nil

/-- Second offset box. -/
def exOffsetB : ParsedElement := .mk ⟨"b", "div", "", {}, ⟨5, 2, 1, 1⟩⟩ .nil

/-! ## Helper lemmas -/

@[simp] theorem parsedForest_nil_append (ys : ParsedForest) :
    ParsedForest.append .nil ys = ys := rfl

@[simp] theorem parsedForest_cons_append (x : ParsedElement) (xs ys : ParsedForest) :
    ParsedForest.append (ParsedForest.cons x xs) ys = ParsedForest.cons x (ParsedForest.append xs ys) := rfl

@[simp] theorem pptxForest_nil_append (ys : PPTXForest) :
    PPTXForest.append .nil ys = ys := rfl

@[simp] theorem pptxForest_cons_append (x : PPTXElement) (xs ys : PPTXForest) :
    PPTXForest.append (PPTXForest.cons x xs) ys = PPTXForest.cons x (PPTXForest.append xs ys) := rfl

theorem ParsedForest.length_eq_zero : ∀ xs : ParsedForest, xs.length = 0 ↔ xs = .nil
  | .nil => by simp [ParsedForest.length]
  | .cons x xs => by simp [ParsedForest.length]

theorem ParsedForest.nodeData_append : ∀ xs ys : ParsedForest,
    (ParsedForest.append xs ys).nodeData = xs.nodeData ++ ys.nodeData
  | .nil, ys => by simp [ParsedForest.nodeData]
  | .cons x xs, ys => by
    simp [ParsedForest.nodeData, ParsedForest.nodeData_append xs ys]

namespace PlaywrightLayoutCollector

mutual
theorem shiftElement_nodeData (mx my : ℚ) : ∀ e : ParsedElement,
    (shiftElement mx my e).nodeData = e.nodeData.map (fun d =>
      { d with position :=
        { d.position with x := d.position.x - mx, y := d.position.y - my } })
  | .mk d cs => by
    simp [shiftElement, ParsedElement.nodeData, shiftForest_nodeData mx my cs]
theorem shiftForest_nodeData (mx my : ℚ) : ∀ es : ParsedForest,
    (shiftForest mx my es).nodeData = es.nodeData.map (fun d =>
      { d with position :=
        { d.position with x := d.position.x - mx, y := d.position.y - my } })
  | .nil => by simp [shiftForest, ParsedForest.nodeData]
  | .cons e es => by
    simp [shiftForest, ParsedForest.nodeData, shiftElement_nodeData mx my e,
      shiftForest_nodeData mx my es]
end

theorem foldl_min_map_sub (c : ℚ) : ∀ (as : List ℚ) (a : ℚ),
    (as.map (fun x => x - c)).foldl min (a - c) = as.foldl min a - c
  | [], a => by simp
  | b :: bs, a => by
    simp only [List.map_cons, List.foldl_cons, min_sub_sub_right a b c]
    exact foldl_min_map_sub c bs (min a b)

theorem forestMinX_shift (mx my : ℚ) (es : ParsedForest) :
    forestMinX (shiftForest mx my es) = (forestMinX es).map (fun v => v - mx) := by
  unfold forestMinX
  rw [shiftForest_nodeData]
  have key : (es.nodeData.map (fun d =>
      ({ d with position :=
        { d.position with x := d.position.x - mx, y := d.position.y - my } } : ParsedData))).map
        (fun d => d.position.x) =
      (es.nodeData.map (fun d => d.position.x)).map (fun x => x - mx) := by
    simp only [List.map_map]; rfl
  rw [key]
  cases h : es.nodeData.map (fun d => d.position.x) with
  | nil => simp
  | cons a as =>
    simp only [List.map_cons]
    exact congrArg some (foldl_min_map_sub mx as a)

theorem forestMinY_shift (mx my : ℚ) (es : ParsedForest) :
    forestMinY (shiftForest mx my es) = (forestMinY es).map (fun v => v - my) := by
  unfold forestMinY
  rw [shiftForest_nodeData]
  have key : (es.nodeData.map (fun d =>
      ({ d with position :=
        { d.position with x := d.position.x - mx, y := d.position.y - my } } : ParsedData))).map
        (fun d => d.position.y) =
      (es.nodeData.map (fun d => d.position.y)).map (fun y => y - my) := by
    simp only [List.map_map]; rfl
  rw [key]
  cases h : es.nodeData.map (fun d => d.position.y) with
  | nil => simp
  | cons a as =>
    simp only [List.map_cons]
    exact congrArg some (foldl_min_map_sub my as a)

theorem forestMinX_isSome (F : ParsedForest) (hne : F ≠ .nil) :
    ∃ mx, forestMinX F = some mx := by
  cases F with
  | nil => exact absurd rfl hne
  | cons e es =>
    cases e with
    | mk d cs =>
      unfold forestMinX
      simp [ParsedForest.nodeData, ParsedElement.nodeData]

theorem forestMinY_isSome (F : ParsedForest) (hne : F ≠ .nil) :
    ∃ my, forestMinY F = some my := by
  cases F with
  | nil => exact absurd rfl hne
  | cons e es =>
    cases e with
    | mk d cs =>
      unfold forestMinY
      simp [ParsedForest.nodeData, ParsedElement.nodeData]

theorem shift_zero_data (d : ParsedData) :
    ({ d with position :=
      { d.position with x := d.position.x - 0, y := d.position.y - 0 } }) = d := by
  cases d with
  | mk i t tc st p =>
    cases p
    simp

end PlaywrightLayoutCollector

/-! ## Claim theorems -/

/-- **C10** — browser-collected layout trees are normalized before
classification: for every non-empty collected forest, `normalizeCoordinates`
shifts every node's `x`/`y` by the global minima (leaving widths, heights and
relative offsets unchanged, since every node moves by the same vector), and
the returned tree has minimum `x = 0` and minimum `y = 0`. -/
theorem C10_normalize_coordinates (F : ParsedForest) (hne : F ≠ .nil) :
    ∃ mx my,
      PlaywrightLayoutCollector.forestMinX F = some mx ∧
      PlaywrightLayoutCollector.forestMinY F = some my ∧
      (PlaywrightLayoutCollector.normalizeCoordinates F).nodeData =
        F.nodeData.map (fun d =>
          { d with position :=
            { d.position with x := d.position.x - mx, y := d.position.y - my } }) ∧
      PlaywrightLayoutCollector.forestMinX
        (PlaywrightLayoutCollector.normalizeCoordinates F) = some 0 ∧
      PlaywrightLayoutCollector.forestMinY
        (PlaywrightLayoutCollector.normalizeCoordinates F) = some 0 := by
  obtain ⟨mx, hmx⟩ := PlaywrightLayoutCollector.forestMinX_isSome F hne
  obtain ⟨my, hmy⟩ := PlaywrightLayoutCollector.forestMinY_isSome F hne
  refine ⟨mx, my, hmx, hmy, ?_⟩
  unfold PlaywrightLayoutCollector.normalizeCoordinates
  rw [hmx, hmy]
  by_cases hz : mx ≠ 0 ∨ my ≠ 0
  · simp only [hz, if_pos]
    refine ⟨PlaywrightLayoutCollector.shiftForest_nodeData mx my F, ?_, ?_⟩
    · rw [PlaywrightLayoutCollector.forestMinX_shift, hmx]
      simp
    · rw [PlaywrightLayoutCollector.forestMinY_shift, hmy]
      simp
  · push_neg at hz
    obtain ⟨hx0, hy0⟩ := hz
    subst hx0; subst hy0
    simp only [ne_eq, not_true_eq_false, or_self, if_false]
    refine ⟨?_, hmx, hmy⟩
    rw [List.map_congr_left (fun d _ => PlaywrightLayoutCollector.shift_zero_data d)]
    simp

/-- **C10 witness**: the normalization theorem applied to a concrete two-box
forest with minima `(3, 2)`. -/
theorem C10_witness :
    ∃ mx my,
      PlaywrightLayoutCollector.forestMinX (.cons exOffsetA (.cons exOffsetB .nil)) = some mx ∧
      PlaywrightLayoutCollector.forestMinY (.cons exOffsetA (.cons exOffsetB .nil)) = some my ∧
      (PlaywrightLayoutCollector.normalizeCoordinates
        (.cons exOffsetA (.cons exOffsetB .nil))).nodeData =
        (ParsedForest.cons exOffsetA (.cons exOffsetB .nil)).nodeData.map (fun d =>
          { d with position :=
            { d.position with x := d.position.x - mx, y := d.position.y - my } }) ∧
      PlaywrightLayoutCollector.forestMinX
        (PlaywrightLayoutCollector.normalizeCoordinates
          (.cons exOffsetA (.cons exOffsetB .nil))) = some 0 ∧
      PlaywrightLayoutCollector.forestMinY
        (PlaywrightLayoutCollector.normalizeCoordinates
          (.cons exOffsetA (.cons exOffsetB .nil))) = some 0 :=
  C10_normalize_coordinates (.cons exOffsetA (.cons exOffsetB .nil)) (by simp)

/-! ### C2: table shape invariants -/

theorem foldl_preserves {α σ : Type _} (P : σ → Prop) (f : σ → α → σ) :
    ∀ (l : List α) (s : σ), P s → (∀ s a, P s → P (f s a)) → P (l.foldl f s)
  | [], s, h, _ => h
  | a :: l, s, h, hstep => foldl_preserves P f l (f s a) (hstep s a h) hstep

theorem padCells_length (cells : List TableCell) (n : ℕ) :
    (ElementClassifier.padCells cells n).length = max cells.length n := by
  simp [ElementClassifier.padCells]
  omega

theorem mem_markFirstRowHeader (rows : List TableRow) (r : TableRow)
    (h : r ∈ ElementClassifier.markFirstRowHeader rows) :
    ∃ r0 ∈ rows, r.cells.length = r0.cells.length := by
  cases rows with
  | nil => simp [ElementClassifier.markFirstRowHeader] at h
  | cons r0 rest =>
    simp only [ElementClassifier.markFirstRowHeader, List.mem_cons] at h
    rcases h with h | h
    · exact ⟨r0, by simp, by simp [h]⟩
    · exact ⟨r, by simp [h], rfl⟩

theorem processThead_inv (th : ParsedElement) (acc : ElementClassifier.TableScanAcc)
    (hinv : ∀ r ∈ acc.rows, r.cells.length ≤ acc.numCols) :
    ∀ r ∈ (ElementClassifier.processThead th acc).rows,
      r.cells.length ≤ (ElementClassifier.processThead th acc).numCols := by
  unfold ElementClassifier.processThead
  refine foldl_preserves
    (fun (s : ElementClassifier.TableScanAcc) => ∀ r ∈ s.rows, r.cells.length ≤ s.numCols)
    _ _ _ hinv ?_
  intro s tr hs
  by_cases htag : (tr.data.tagName == "tr") = true
  · simp only [htag, if_true]
    by_cases hemp : (ElementClassifier.theadCells tr).isEmpty = true
    · simp only [hemp, if_true]; exact hs
    · simp only [hemp, if_false]
      intro r hr
      rcases List.mem_append.mp hr with h | h
      · exact le_trans (hs r h) (Nat.le_max_left _ _)
      · simp only [List.mem_singleton] at h
        subst h
        exact Nat.le_max_right _ _
  · simp only [htag, if_false]; exact hs

theorem processTbody_inv (tb : ParsedElement) (acc : ElementClassifier.TableScanAcc)
    (hinv : ∀ r ∈ acc.rows, r.cells.length ≤ acc.numCols) :
    ∀ r ∈ (ElementClassifier.processTbody tb acc).rows,
      r.cells.length ≤ (ElementClassifier.processTbody tb acc).numCols := by
  unfold ElementClassifier.processTbody
  refine foldl_preserves
    (fun (s : ElementClassifier.TableScanAcc) => ∀ r ∈ s.rows, r.cells.length ≤ s.numCols)
    _ _ _ hinv ?_
  intro s tr hs
  by_cases htag : (tr.data.tagName == "tr") = true
  · simp only [htag, if_true]
    by_cases hemp : (ElementClassifier.tbodyCells s.hasHeader s.rows.length tr).isEmpty = true
    · simp only [hemp, if_true]; exact hs
    · simp only [hemp, if_false]
      have base : ∀ r ∈ s.rows ++
          [TableRow.mk (ElementClassifier.tbodyCells s.hasHeader s.rows.length tr)],
          r.cells.length ≤
            max s.numCols (ElementClassifier.tbodyCells s.hasHeader s.rows.length tr).length := by
        intro r hr
        rcases List.mem_append.mp hr with h | h
        · exact le_trans (hs r h) (Nat.le_max_left _ _)
        · simp only [List.mem_singleton] at h
          subst h
          exact Nat.le_max_right _ _
      by_cases hmark : (!s.hasHeader &&
          (s.rows ++ [TableRow.mk (ElementClassifier.tbodyCells s.hasHeader s.rows.length tr)]).length == 1) = true
      · simp only [hmark, if_true]
        intro r hr
        obtain ⟨r0, hr0, hlen⟩ := mem_markFirstRowHeader _ r hr
        rw [hlen]
        exact base r0 hr0
      · simp only [hmark, if_false]
        exact base
  · simp only [htag, if_false]; exact hs

theorem foldr_max_const (n : ℕ) : ∀ l : List ℕ, l ≠ [] → (∀ x ∈ l, x = n) →
    l.foldr max 0 = n
  | [], hne, _ => absurd rfl hne
  | [x], _, hall => by simp [hall x (by simp)]
  | x :: y :: l, _, hall => by
    have hx : x = n := hall x (by simp)
    have hrest : (y :: l).foldr max 0 = n :=
      foldr_max_const n (y :: l) (by simp) (fun z hz => hall z (List.mem_cons_of_mem x hz))
    simp only [List.foldr_cons] at hrest ⊢
    rw [hrest, hx]
    simp

theorem buildHTML_shape (el : ParsedElement) (td : TableData)
    (h : ElementClassifier.buildTableDataFromHTML el = some td) :
    ∃ acc : ElementClassifier.TableScanAcc,
      (∀ r ∈ acc.rows, r.cells.length ≤ acc.numCols) ∧ acc.rows ≠ [] ∧
      td = ⟨acc.rows.map (fun r => ⟨ElementClassifier.padCells r.cells acc.numCols⟩),
            acc.numCols⟩ := by
  unfold ElementClassifier.buildTableDataFromHTML at h
  simp only [] at h
  set tt := ElementClassifier.theadTbody el.children.toList with htt
  set acc1 := (match tt.1 with
    | some th => ElementClassifier.processThead th ⟨[], 0, false⟩
    | none => (⟨[], 0, false⟩ : ElementClassifier.TableScanAcc)) with hacc1
  set acc2 := (match tt.2 with
    | some tb => ElementClassifier.processTbody tb acc1
    | none => acc1) with hacc2
  have inv1 : ∀ r ∈ acc1.rows, r.cells.length ≤ acc1.numCols := by
    rw [hacc1]
    cases tt.1 with
    | some th => exact processThead_inv th ⟨[], 0, false⟩ (by simp)
    | none => simp
  have inv2 : ∀ r ∈ acc2.rows, r.cells.length ≤ acc2.numCols := by
    rw [hacc2]
    cases tt.2 with
    | some tb => exact processTbody_inv tb acc1 inv1
    | none => exact inv1
  by_cases hemp : acc2.rows.isEmpty = true
  · rw [if_pos hemp] at h
    exact absurd h (by simp)
  · rw [if_neg hemp] at h
    refine ⟨acc2, inv2, ?_, ?_⟩
    · intro hnil
      exact hemp (by simp [hnil])
    · injection h with h
      exact h.symm

theorem buildPseudo_shape (el : ParsedElement) (td : TableData)
    (h : ElementClassifier.buildTableDataFromPseudoTable el = some td) :
    ∃ (rows : List TableRow) (n : ℕ),
      (∀ r ∈ rows, r.cells.length ≤ n) ∧ rows ≠ [] ∧
      td = ⟨rows.map (fun r => ⟨ElementClassifier.padCells r.cells n⟩), n⟩ := by
  unfold ElementClassifier.buildTableDataFromPseudoTable at h
  simp only [] at h
  set step := el.children.toList.enum.foldl
    (fun (acc : List TableRow × ℕ) irow =>
      let cells := ElementClassifier.pseudoRow irow.1 irow.2
      if cells.isEmpty then acc
      else (acc.1 ++ [⟨cells⟩], max acc.2 cells.length)) ([], 0) with hstep
  have invs : ∀ r ∈ step.1, r.cells.length ≤ step.2 := by
    rw [hstep]
    refine foldl_preserves
      (fun (s : List TableRow × ℕ) => ∀ r ∈ s.1, r.cells.length ≤ s.2)
      _ _ _ (by simp) ?_
    intro s a hs
    by_cases hemp : (ElementClassifier.pseudoRow a.1 a.2).isEmpty = true
    · simp only [hemp, if_true]
      exact hs
    · simp only [hemp, if_false]
      intro r hr
      rcases List.mem_append.mp hr with hmem | hmem
      · exact le_trans (hs r hmem) (Nat.le_max_left _ _)
      · simp only [List.mem_singleton] at hmem
        subst hmem
        exact Nat.le_max_right _ _
  cases hs1 : step.1 with
  | nil =>
    rw [hs1] at h
    exact absurd h (by simp)
  | cons r0 rest =>
    rw [hs1] at h
    rw [hs1] at invs
    simp only [] at h
    by_cases hhdr : (r0.cells.any fun c => c.isHeader) = true
    · rw [if_pos hhdr] at h
      refine ⟨ElementClassifier.markFirstRowHeader (r0 :: rest), step.2, ?_,
        by simp [ElementClassifier.markFirstRowHeader], ?_⟩
      · intro r hr
        obtain ⟨rr, hrr, hlenr⟩ := mem_markFirstRowHeader _ r hr
        rw [hlenr]
        exact invs rr hrr
      · injection h with h
        exact h.symm
    · rw [if_neg hhdr] at h
      refine ⟨r0 :: rest, step.2, invs, by simp, ?_⟩
      injection h with h
      exact h.symm

/-- **C2** — every `TableData` produced by classification (native HTML table
or div-based pseudo table) has every row padded to exactly `numCols` cells,
and `numCols` equals the maximum cell count over its rows. -/
theorem C2_table_shape (el : ParsedElement) (td : TableData)
    (h : ElementClassifier.buildTableData el = some td) :
    (∀ r ∈ td.rows, r.cells.length = td.numCols) ∧
    td.numCols = (td.rows.map (fun r => r.cells.length)).foldr max 0 := by
  have shape : ∃ (rows : List TableRow) (n : ℕ),
      (∀ r ∈ rows, r.cells.length ≤ n) ∧ rows ≠ [] ∧
      td = ⟨rows.map (fun r => ⟨ElementClassifier.padCells r.cells n⟩), n⟩ := by
    unfold ElementClassifier.buildTableData at h
    by_cases htag : (el.data.tagName == "table") = true
    · rw [if_pos htag] at h
      obtain ⟨acc, hinv, hne, heq⟩ := buildHTML_shape el td h
      exact ⟨acc.rows, acc.numCols, hinv, hne, heq⟩
    · rw [if_neg htag] at h
      exact buildPseudo_shape el td h
  obtain ⟨rows, n, hinv, hne, heq⟩ := shape
  subst heq
  have hlen : ∀ r ∈ rows.map
      (fun r => TableRow.mk (ElementClassifier.padCells r.cells n)),
      r.cells.length = n := by
    intro r hr
    obtain ⟨r0, hr0, hr0eq⟩ := List.mem_map.mp hr
    subst hr0eq
    simp [padCells_length, Nat.max_eq_right (hinv r0 hr0)]
  refine ⟨hlen, ?_⟩
  refine (foldr_max_const n _ ?_ ?_).symm
  · simp [hne]
  · intro x hx
    obtain ⟨r, hr, hxeq⟩ := List.mem_map.mp hx
    subst hxeq
    exact hlen r hr

/-- **C2 witness**: the table-shape theorem applied to the concrete 2×2 div
grid. -/
theorem C2_witness :
    (∀ r ∈ (TableData.mk
        [⟨[⟨"A", true, {}⟩, ⟨"B", true, {}⟩]⟩, ⟨[⟨"A", false, {}⟩, ⟨"B", false, {}⟩]⟩]
        2).rows,
      r.cells.length = (TableData.mk
        [⟨[⟨"A", true, {}⟩, ⟨"B", true, {}⟩]⟩, ⟨[⟨"A", false, {}⟩, ⟨"B", false, {}⟩]⟩]
        2).numCols) ∧
    (TableData.mk
        [⟨[⟨"A", true, {}⟩, ⟨"B", true, {}⟩]⟩, ⟨[⟨"A", false, {}⟩, ⟨"B", false, {}⟩]⟩]
        2).numCols =
      ((TableData.mk
        [⟨[⟨"A", true, {}⟩, ⟨"B", true, {}⟩]⟩, ⟨[⟨"A", false, {}⟩, ⟨"B", false, {}⟩]⟩]
        2).rows.map (fun r => r.cells.length)).foldr max 0 :=
  C2_table_shape exGrid _ (by decide)

/-! ### C5 / C3: ellipse, rounded rectangle and triangle classification -/

/-- **C5** — after the table/text/line branches have declined: a border
radius that resolves to `50%` together with width ≈ height (0.1 in) yields
`ellipse`; a positive border radius whose ellipse test fails yields
`roundRect`, never `ellipse`. -/
theorem C5_ellipse_vs_roundRect :
    (∀ el : ParsedElement,
      (ElementClassifier.isTableElement el || ElementClassifier.isTableLikeStructure el) = false →
      ElementClassifier.textShapeTags.contains el.data.tagName = false →
      (el.data.tagName == "hr") = false →
      el.data.styles.borderRadius = some "50%" →
      |el.data.position.width - el.data.position.height| < 1/10 →
      ElementClassifier.determineShapeType el = .ellipse) ∧
    (∀ el : ParsedElement,
      (ElementClassifier.isTableElement el || ElementClassifier.isTableLikeStructure el) = false →
      ElementClassifier.textShapeTags.contains el.data.tagName = false →
      (el.data.tagName == "hr") = false →
      ElementClassifier.hasRoundedCorners el = true →
      ElementClassifier.isCircle el = false →
      ElementClassifier.determineShapeType el = .roundRect) := by
  constructor
  · intro el h1 h2 h3 hbr hdim
    have h2x : el.data.tagName ∉ ElementClassifier.textShapeTags := by simpa using h2
    have hc : ElementClassifier.isCircle el = true := by
      unfold ElementClassifier.isCircle
      rw [hbr]
      simp [show strContains "50%" "50%" = true from by decide]
      simpa using hdim
    unfold ElementClassifier.determineShapeType
    simp [h1, h2x, h3, hc]
  · intro el h1 h2 h3 hround hc
    have h2x : el.data.tagName ∉ ElementClassifier.textShapeTags := by simpa using h2
    unfold ElementClassifier.determineShapeType
    simp [h1, h2x, h3, hc, hround]

/-- **C5 witness**: Scenario C concretely — a 100×100 px div with
border-radius 50% classifies `ellipse`; the 100×50 px variant classifies
`roundRect`. -/
theorem C5_witness :
    ElementClassifier.determineShapeType exCircleDiv = .ellipse ∧
    ElementClassifier.determineShapeType exOvalDiv = .roundRect := by
  constructor
  · exact C5_ellipse_vs_roundRect.1 exCircleDiv (by decide) (by decide) (by decide)
      (by decide) (by norm_num [exCircleDiv, ParsedElement.data])
  · refine C5_ellipse_vs_roundRect.2 exOvalDiv (by decide) (by decide) (by decide) ?_ ?_
    · simp +decide [ElementClassifier.hasRoundedCorners, exOvalDiv, ParsedElement.data,
        qOptGt, jsParseFloat, digitsVal, fracVal, Char.toNat]
      try norm_num [UInt32.size]
    · have habs : |(100 : ℚ)/96 - 50/96| = 100/96 - 50/96 := abs_of_nonneg (by norm_num)
      simp +decide [ElementClassifier.isCircle, exOvalDiv, ParsedElement.data, habs]
      try norm_num

theorem getVisibleBorderSide_isSome_iff (el : ParsedElement) :
    (ElementClassifier.getVisibleBorderSide el).isSome = true ↔
      1 ≤ ((ElementClassifier.borderSideList el.data.styles).filter
        ElementClassifier.borderSideVisible).length := by
  unfold ElementClassifier.getVisibleBorderSide
  rw [List.find?_isSome]
  constructor
  · rintro ⟨x, hx, hpx⟩
    have : x ∈ (ElementClassifier.borderSideList el.data.styles).filter
        ElementClassifier.borderSideVisible := List.mem_filter.mpr ⟨hx, hpx⟩
    have hpos : 0 < ((ElementClassifier.borderSideList el.data.styles).filter
        ElementClassifier.borderSideVisible).length :=
      List.length_pos.mpr (fun hnil => by simp [hnil] at this)
    exact hpos
  · intro hlen
    have hne : (ElementClassifier.borderSideList el.data.styles).filter
        ElementClassifier.borderSideVisible ≠ [] := by
      intro hnil
      rw [hnil] at hlen
      simp at hlen
    obtain ⟨x, hx⟩ := List.exists_mem_of_ne_nil _ hne
    have := List.mem_filter.mp hx
    exact ⟨x, this.1, this.2⟩

/-- **C3 (amended)** — after the earlier branches have declined, an element
classifies `triangle` iff both dimensions are below 0.05 in, no blocking
background fill is present, and **at least one** (not exactly one) of the
four border sides is solid with positive parsed width and a non-transparent
color. -/
theorem C3_triangle_at_least_one_side (el : ParsedElement)
    (h1 : (ElementClassifier.isTableElement el || ElementClassifier.isTableLikeStructure el) = false)
    (h2 : ElementClassifier.textShapeTags.contains el.data.tagName = false)
    (h3 : (el.data.tagName == "hr") = false)
    (hc : ElementClassifier.isCircle el = false)
    (hr : ElementClassifier.hasRoundedCorners el = false) :
    ElementClassifier.determineShapeType el = .triangle ↔
      (el.data.position.width < 1/20 ∧ el.data.position.height < 1/20 ∧
       ElementClassifier.hasBlockingBackground el.data.styles.backgroundColor = false ∧
       1 ≤ ((ElementClassifier.borderSideList el.data.styles).filter
         ElementClassifier.borderSideVisible).length) := by
  have h2x : el.data.tagName ∉ ElementClassifier.textShapeTags := by simpa using h2
  have htri : ElementClassifier.determineShapeType el = .triangle ↔
      ElementClassifier.isTriangle el = true := by
    cases h : ElementClassifier.isTriangle el with
    | false => simp [ElementClassifier.determineShapeType, h1, h2x, h3, hc, hr, h]
    | true => simp [ElementClassifier.determineShapeType, h1, h2x, h3, hc, hr, h]
  rw [htri]
  constructor
  · intro ht
    unfold ElementClassifier.isTriangle at ht
    simp at ht
    obtain ⟨⟨hw, hh⟩, hbg, hsome⟩ := ht
    exact ⟨by simpa using hw, by simpa using hh, hbg,
      (getVisibleBorderSide_isSome_iff el).mp (by simpa using hsome)⟩
  · rintro ⟨hw, hh, hbg, hcount⟩
    unfold ElementClassifier.isTriangle
    simp [hw, hh, hbg, (getVisibleBorderSide_isSome_iff el).mpr hcount]
    exact ⟨by simpa using hw, by simpa using hh⟩

/-- **C3 counterexample** — a zero-size div with *two* solid non-transparent
border sides (top and bottom) is still classified `triangle`, refuting the
claim's "exactly one side" characterization. -/
theorem C3_counterexample :
    ElementClassifier.determineShapeType exTwoBorderTriangle = .triangle ∧
    ((ElementClassifier.borderSideList exTwoBorderTriangle.data.styles).filter
      ElementClassifier.borderSideVisible).length = 2 := by
  constructor
  · simp +decide [ElementClassifier.determineShapeType, ElementClassifier.isTableElement,
      ElementClassifier.isTableLikeStructure, ElementClassifier.isCircle,
      ElementClassifier.hasRoundedCorners, ElementClassifier.isTriangle,
      ElementClassifier.hasBlockingBackground, ElementClassifier.getVisibleBorderSide,
      ElementClassifier.borderSideList, ElementClassifier.borderSideVisible,
      exTwoBorderTriangle, ParsedElement.data, ParsedElement.children,
      ParsedForest.toList, ElementClassifier.textShapeTags, qOptGt,
      show jsParseFloat "10px" = some 10 from by
        simp +decide [jsParseFloat, digitsVal, fracVal, Char.toNat]
        norm_num [UInt32.size]]
    try norm_num
  · simp +decide [ElementClassifier.borderSideList, ElementClassifier.borderSideVisible,
      exTwoBorderTriangle, ParsedElement.data, qOptGt,
      show jsParseFloat "10px" = some 10 from by
        simp +decide [jsParseFloat, digitsVal, fracVal, Char.toNat]
        norm_num [UInt32.size]]

/-- **C3 witness**: the amended characterization instantiated at the
two-border triangle (both sides of the equivalence hold there). -/
theorem C3_witness :
    ElementClassifier.determineShapeType exTwoBorderTriangle = .triangle ↔
      (exTwoBorderTriangle.data.position.width < 1/20 ∧
       exTwoBorderTriangle.data.position.height < 1/20 ∧
       ElementClassifier.hasBlockingBackground
         exTwoBorderTriangle.data.styles.backgroundColor = false ∧
       1 ≤ ((ElementClassifier.borderSideList exTwoBorderTriangle.data.styles).filter
         ElementClassifier.borderSideVisible).length) :=
  C3_triangle_at_least_one_side exTwoBorderTriangle (by decide) (by decide) (by decide)
    (by decide) (by decide)

/-! ### C7: uniform vs per-side borders -/

theorem checkBorder_map_side (st : ComputedStyles) (pos : ElementPosition)
    (side : BorderSide) :
    (StyleConverter.checkBorder st pos side).map (fun b => b.side) =
      if StyleConverter.sideVisible st side then [side] else [] := by
  unfold StyleConverter.checkBorder StyleConverter.sideVisible
  rcases hsr : StyleConverter.sideRaw st side with ⟨w, c, s⟩
  cases w with
  | none => simp
  | some w =>
    cases c with
    | none => simp
    | some c =>
      cases s with
      | none => simp
      | some s =>
        simp only []
        by_cases h1 : (!(w == "") && qOptGt (jsParseFloat w) 0 && !(s == "") &&
            !(s == "none") && !(c == "")) = true
        · by_cases h2 : jsTruthy (StyleConverter.convertColor c) = true
          · simp [h1, h2]
          · simp only [Bool.not_eq_true] at h2
            simp [h1, h2]
        · have h1f : (!(w == "") && qOptGt (jsParseFloat w) 0 && !(s == "") &&
              !(s == "none") && !(c == "")) = false := Bool.not_eq_true _ |>.mp h1
          simp [h1f]

theorem extract_map_side (st : ComputedStyles) (pos : ElementPosition) :
    (StyleConverter.extractSingleSidedBorders st pos).map (fun b => b.side) =
      [BorderSide.top, .right, .bottom, .left].filter
        (fun sd => StyleConverter.sideVisible st sd) := by
  unfold StyleConverter.extractSingleSidedBorders
  simp only [List.map_append, checkBorder_map_side]
  cases h1 : StyleConverter.sideVisible st .top <;>
    cases h2 : StyleConverter.sideVisible st .right <;>
      cases h3 : StyleConverter.sideVisible st .bottom <;>
        cases h4 : StyleConverter.sideVisible st .left <;>
          simp [List.filter, h1, h2, h3, h4]

theorem extract_ne_nil (st : ComputedStyles) (pos : ElementPosition)
    (h : ∃ sd, StyleConverter.sideVisible st sd = true) :
    StyleConverter.extractSingleSidedBorders st pos ≠ [] := by
  obtain ⟨sd, hsd⟩ := h
  intro hnil
  have hmap := extract_map_side st pos
  rw [hnil] at hmap
  have hmem : sd ∈ [BorderSide.top, .right, .bottom, .left].filter
      (fun x => StyleConverter.sideVisible st x) := by
    refine List.mem_filter.mpr ⟨?_, hsd⟩
    cases sd <;> simp
  rw [← hmap] at hmem
  simp at hmem

/-- **C7** — an element with all four border sides present and equal (same
raw width, style and color strings, positive parsed width, style not `none`)
gets a single uniform outline and no per-side list; an element that is not
uniform but has at least one visible side gets exactly the visible sides as
independent per-side entries (in top/right/bottom/left order) and no uniform
outline. -/
theorem C7_border_uniformity :
    (∀ (st : ComputedStyles) (pos : ElementPosition) (w s : String) (c : Option String),
      st.borderTopWidth = some w → st.borderRightWidth = some w →
      st.borderBottomWidth = some w → st.borderLeftWidth = some w →
      st.borderTopStyle = some s → st.borderRightStyle = some s →
      st.borderBottomStyle = some s → st.borderLeftStyle = some s →
      st.borderTopColor = c → st.borderRightColor = c →
      st.borderBottomColor = c → st.borderLeftColor = c →
      w ≠ "" → qOptGt (jsParseFloat w) 0 = true → s ≠ "" → s ≠ "none" →
      (StyleConverter.convertStyles st pos).line.isSome = true ∧
      (StyleConverter.convertStyles st pos).singleSidedBorders = none) ∧
    (∀ (st : ComputedStyles) (pos : ElementPosition),
      StyleConverter.hasUniformBorder st = false →
      (∃ sd, StyleConverter.sideVisible st sd = true) →
      (StyleConverter.convertStyles st pos).line = none ∧
      (StyleConverter.convertStyles st pos).singleSidedBorders =
        some (StyleConverter.extractSingleSidedBorders st pos) ∧
      (StyleConverter.extractSingleSidedBorders st pos).map (fun b => b.side) =
        [BorderSide.top, .right, .bottom, .left].filter
          (fun sd => StyleConverter.sideVisible st sd)) := by
  constructor
  · intro st pos w s c hw1 hw2 hw3 hw4 hs1 hs2 hs3 hs4 hc1 hc2 hc3 hc4 hwne hwpos hsne hsnone
    have huni : StyleConverter.hasUniformBorder st = true := by
      unfold StyleConverter.hasUniformBorder StyleConverter.hasSideBorder
      rw [hw1, hw2, hw3, hw4, hs1, hs2, hs3, hs4, hc1, hc2, hc3, hc4]
      simp [hwne, hwpos, hsne, hsnone]
    unfold StyleConverter.convertStyles
    simp [huni]
  · intro st pos huni hvis
    have hne := extract_ne_nil st pos hvis
    unfold StyleConverter.convertStyles
    simp [huni, hne, extract_map_side]

/-- **C7 witness**: the uniform case at a uniform 2px solid black border, and
Scenario D (only `border-bottom: 4px solid red`) yielding a single `bottom`
per-side entry. -/
theorem C7_witness :
    ((StyleConverter.convertStyles exUniformStyles ⟨0, 0, 1, 1⟩).line.isSome = true ∧
     (StyleConverter.convertStyles exUniformStyles ⟨0, 0, 1, 1⟩).singleSidedBorders = none) ∧
    ((StyleConverter.convertStyles exBottomOnlyStyles ⟨0, 0, 1, 1⟩).line = none ∧
     (StyleConverter.convertStyles exBottomOnlyStyles ⟨0, 0, 1, 1⟩).singleSidedBorders =
       some (StyleConverter.extractSingleSidedBorders exBottomOnlyStyles ⟨0, 0, 1, 1⟩) ∧
     (StyleConverter.extractSingleSidedBorders exBottomOnlyStyles ⟨0, 0, 1, 1⟩).map
         (fun b => b.side) =
       [BorderSide.top, .right, .bottom, .left].filter
         (fun sd => StyleConverter.sideVisible exBottomOnlyStyles sd)) := by
  constructor
  · exact C7_border_uniformity.1 exUniformStyles ⟨0, 0, 1, 1⟩ "2px" "solid" (some "black")
      rfl rfl rfl rfl rfl rfl rfl rfl rfl rfl rfl rfl (by decide)
      (by simp +decide [qOptGt, jsParseFloat, digitsVal, fracVal, Char.toNat]
          try norm_num [UInt32.size])
      (by decide) (by decide)
  · refine C7_border_uniformity.2 exBottomOnlyStyles ⟨0, 0, 1, 1⟩ ?_ ⟨.bottom, ?_⟩
    · simp +decide [StyleConverter.hasUniformBorder, StyleConverter.hasSideBorder,
        exBottomOnlyStyles]
    · simp +decide [StyleConverter.sideVisible, StyleConverter.sideRaw, exBottomOnlyStyles,
        qOptGt, jsParseFloat, digitsVal, fracVal, Char.toNat, jsTruthy,
        StyleConverter.convertColor, convertColorFn]
      try norm_num [UInt32.size]

/-! ### C6: gradient conversion -/

theorem zip_range_map_fst {α β : Type _} (l : List α) (g : ℕ → β) :
    ((List.range l.length).zip l).map (fun ic => g ic.1) =
      (List.range l.length).map g := by
  have hfst : ((List.range l.length).zip l).map Prod.fst = List.range l.length :=
    List.map_fst_zip _ _ (by rw [List.length_range])
  calc ((List.range l.length).zip l).map (fun ic => g ic.1)
      = (((List.range l.length).zip l).map Prod.fst).map g := by
        rw [List.map_map]
        rfl
    _ = (List.range l.length).map g := by rw [hfst]

/-- **C6 (amended)** — for every background value containing a gradient
function with `n ≥ 2` extracted color stops, the emitted stop list carries
positions `(i / (n-1)) * 100` regardless of the source's literal stop
percentages, and linear gradients carry `extractGradientAngle`'s angle, whose
named-direction mapping is: explicit degrees win; `to right` ↦ 90,
`to left` ↦ 270, and — because the plain vertical checks run first — all of
`to bottom`, `to bottom right`, `to bottom left` ↦ 180 and all of `to top`,
`to top right`, `to top left` ↦ 0 (the diagonal values 45/135/225/315 are
unreachable). -/
theorem C6_gradient_stops_and_angle :
    (∀ bg : String,
      (strContains bg "linear-gradient" = true ∨ strContains bg "radial-gradient" = true) →
      2 ≤ (StyleConverter.extractGradientColors bg).length →
      ∃ g, StyleConverter.convertGradient bg = some g ∧
        g.colors.map (fun stp => stp.position) =
          (List.range (StyleConverter.extractGradientColors bg).length).map
            (fun (i : ℕ) => ((i : ℚ) /
              (((StyleConverter.extractGradientColors bg).length : ℚ) - 1)) * 100) ∧
        g.angle = (if strContains bg "linear-gradient" then
          StyleConverter.extractGradientAngle bg else 0)) ∧
    (StyleConverter.extractGradientAngle "linear-gradient(to top, red, blue)" = 0 ∧
     StyleConverter.extractGradientAngle "linear-gradient(to right, red, blue)" = 90 ∧
     StyleConverter.extractGradientAngle "linear-gradient(to bottom, red, blue)" = 180 ∧
     StyleConverter.extractGradientAngle "linear-gradient(to left, red, blue)" = 270 ∧
     StyleConverter.extractGradientAngle "linear-gradient(to top right, red, blue)" = 0 ∧
     StyleConverter.extractGradientAngle "linear-gradient(to top left, red, blue)" = 0 ∧
     StyleConverter.extractGradientAngle "linear-gradient(to bottom right, red, blue)" = 180 ∧
     StyleConverter.extractGradientAngle "linear-gradient(to bottom left, red, blue)" = 180 ∧
     StyleConverter.extractGradientAngle "linear-gradient(37deg, red, blue)" = 37) := by
  constructor
  · intro bg hkind hn
    unfold StyleConverter.convertGradient
    have hcolne : (StyleConverter.extractGradientColors bg).isEmpty = false := by
      cases hE : (StyleConverter.extractGradientColors bg).isEmpty with
      | false => rfl
      | true =>
        rw [List.isEmpty_iff.mp hE] at hn
        simp at hn
    have hbranch : (!(strContains bg "linear-gradient") &&
        !(strContains bg "radial-gradient")) = false := by
      rcases hkind with h | h <;> simp [h]
    simp only [hbranch, Bool.false_eq_true, if_false, hcolne]
    refine ⟨_, rfl, ?_, rfl⟩
    rw [List.map_map]
    exact zip_range_map_fst (StyleConverter.extractGradientColors bg)
      (fun (i : ℕ) => ((i : ℚ) /
        (((StyleConverter.extractGradientColors bg).length : ℚ) - 1)) * 100)
  · refine ⟨?_, ?_, ?_, ?_, ?_, ?_, ?_, ?_, ?_⟩ <;>
      simp +decide [StyleConverter.extractGradientAngle]

/-- **C6 counterexample** — the claim maps `to bottom right` to 135°, but the
code's `to bottom` containment check runs first, so the emitted angle is
180°. -/
theorem C6_counterexample :
    (StyleConverter.convertGradient "linear-gradient(to bottom right, red, blue)").map
      (fun g => g.angle) = some 180 ∧ (180 : ℚ) ≠ 135 := by
  constructor
  · simp +decide [StyleConverter.convertGradient, StyleConverter.extractGradientAngle,
      show StyleConverter.extractGradientColors
        "linear-gradient(to bottom right, red, blue)" = ["red", "blue"] from by decide]
  · norm_num

/-- **C6 witness**: the stop/angle theorem applied at a concrete two-stop
explicit-angle linear gradient. -/
theorem C6_witness :
    ∃ g, StyleConverter.convertGradient "linear-gradient(90deg, red 25%, blue 80%)" = some g ∧
      g.colors.map (fun stp => stp.position) =
        (List.range (StyleConverter.extractGradientColors
          "linear-gradient(90deg, red 25%, blue 80%)").length).map
          (fun (i : ℕ) => ((i : ℚ) /
            (((StyleConverter.extractGradientColors
              "linear-gradient(90deg, red 25%, blue 80%)").length : ℚ) - 1)) * 100) ∧
      g.angle = (if strContains "linear-gradient(90deg, red 25%, blue 80%)" "linear-gradient"
        then StyleConverter.extractGradientAngle "linear-gradient(90deg, red 25%, blue 80%)"
        else 0) :=
  C6_gradient_stops_and_angle.1 "linear-gradient(90deg, red 25%, blue 80%)"
    (Or.inl (by decide)) (by decide)

/-! ### C8 / C9: empty-input abort and no-op scaling -/

/-- **C8** — when decorative filtering leaves zero elements, the pipeline
aborts with a thrown error; and whenever it reaches the emitter, the
classified element set is non-empty. -/
theorem C8_empty_input_aborts (F : ParsedForest) :
    (ConversionPipeline.filterDecorativeElements F = .nil →
      ∃ msg, ConversionPipeline.convert F = .error msg) ∧
    (∀ out, ConversionPipeline.convert F = .ok out →
      0 < ConversionPipeline.countElements out ∧ out ≠ .nil) := by
  constructor
  · intro h
    unfold ConversionPipeline.convert
    rw [h]
    exact ⟨_, rfl⟩
  · intro out hout
    unfold ConversionPipeline.convert at hout
    simp only [] at hout
    cases h1 : ((ConversionPipeline.filterDecorativeElements F).length == 0) with
    | true => rw [h1] at hout; simp at hout
    | false =>
      rw [h1] at hout
      simp only [Bool.false_eq_true, if_false] at hout
      cases h2 : (ConversionPipeline.countElements
          (ConversionPipeline.filterSkipElements
            (ElementClassifier.classifyForest
              (ConversionPipeline.filterDecorativeElements F))) == 0) with
      | true => rw [h2] at hout; simp at hout
      | false =>
        rw [h2] at hout
        simp only [Bool.false_eq_true, if_false, Except.ok.injEq] at hout
        subst hout
        have hcount : ConversionPipeline.countElements
            (ConversionPipeline.filterSkipElements
              (ElementClassifier.classifyForest
                (ConversionPipeline.filterDecorativeElements F))) ≠ 0 := by
          intro hz
          rw [show (ConversionPipeline.countElements
            (ConversionPipeline.filterSkipElements
              (ElementClassifier.classifyForest
                (ConversionPipeline.filterDecorativeElements F))) == 0) =
              true from by simp [hz]] at h2
          exact Bool.true_eq_false.mp h2
        refine ⟨Nat.pos_of_ne_zero hcount, ?_⟩
        intro hnil
        rw [hnil] at hcount
        exact hcount rfl

/-- **C8 witness**: a single huge text leaf is filtered away and the run
aborts with an error. -/
theorem C8_witness :
    ∃ msg, ConversionPipeline.convert (.cons exHugeTextLeaf .nil) = .error msg :=
  (C8_empty_input_aborts (.cons exHugeTextLeaf .nil)).1 (by
    simp +decide [ConversionPipeline.filterDecorativeElements,
      ConversionPipeline.processForest, ConversionPipeline.processElement,
      ConversionPipeline.shouldFilterElement, exHugeTextLeaf,
      ConversionPipeline.filterSlideWidth, ConversionPipeline.filterSlideHeight,
      jsOrDefault, qOptGt,
      show jsParseFloat "0px" = some 0 from by
        simp +decide [jsParseFloat, digitsVal, fracVal, Char.toNat]]
    norm_num)

/-- **C9** — when the content envelope already fits the slide in both axes,
the auto-scaling step computes scale exactly 1 and returns the element tree
unchanged (positions, dimensions and font sizes untouched). -/
theorem C9_scale_one_when_fits (es : PPTXForest)
    (opts : ConversionPipeline.ConversionOptions)
    (b : ConversionPipeline.ContentBounds)
    (hb : ConversionPipeline.calculateContentBounds es = some b)
    (hw : b.maxX - b.minX ≤ ConversionPipeline.qOrDefault opts.slideWidth (13333/1000))
    (hh : b.maxY - b.minY ≤ ConversionPipeline.qOrDefault opts.slideHeight (15/2)) :
    ConversionPipeline.calculateAndApplyScaling es opts = (1, es) := by
  unfold ConversionPipeline.calculateAndApplyScaling
  rw [hb]
  have hsx : (if b.maxX - b.minX > 0 then
      min 1 (ConversionPipeline.qOrDefault opts.slideWidth (13333/1000) / (b.maxX - b.minX))
      else 1) = 1 := by
    split
    · next hpos => exact min_eq_left ((one_le_div hpos).mpr hw)
    · rfl
  have hsy : (if b.maxY - b.minY > 0 then
      min 1 (ConversionPipeline.qOrDefault opts.slideHeight (15/2) / (b.maxY - b.minY))
      else 1) = 1 := by
    split
    · next hpos => exact min_eq_left ((one_le_div hpos).mpr hh)
    · rfl
  simp only [hsx, hsy]
  norm_num

/-- **C9 witness**: the no-op theorem at a concrete fitting box. -/
theorem C9_witness :
    ConversionPipeline.calculateAndApplyScaling (.cons exFitBox .nil) {} =
      (1, .cons exFitBox .nil) :=
  C9_scale_one_when_fits (.cons exFitBox .nil) {} ⟨1, 1, 6, 6⟩
    (by simp +decide [ConversionPipeline.calculateContentBounds,
      ConversionPipeline.visitedDataForest, ConversionPipeline.visitedDataElem, exFitBox]
        norm_num [ConversionPipeline.ContentBounds.mk.injEq])
    (by simp +decide [ConversionPipeline.qOrDefault]; norm_num)
    (by simp +decide [ConversionPipeline.qOrDefault]; norm_num)

/-! ### C1: auto-scaling -/

theorem scaleData_type (sc ox oy : ℚ) (d : PPTXData) :
    (ConversionPipeline.scaleData sc ox oy d).type = d.type := rfl

mutual
theorem scaleElement_visited (sc ox oy : ℚ) : ∀ e : PPTXElement,
    ConversionPipeline.visitedDataElem (ConversionPipeline.scaleElement sc ox oy e) =
      (ConversionPipeline.visitedDataElem e).map (ConversionPipeline.scaleData sc ox oy)
  | .mk d cs => by
    by_cases ht : (d.type == PPTXShapeType.table) = true
    · simp [ConversionPipeline.scaleElement, ConversionPipeline.visitedDataElem,
        scaleData_type, ht]
    · simp only [Bool.not_eq_true] at ht
      simp [ConversionPipeline.scaleElement, ConversionPipeline.visitedDataElem,
        scaleData_type, ht, scaleForest_visited sc ox oy cs]
theorem scaleForest_visited (sc ox oy : ℚ) : ∀ es : PPTXForest,
    ConversionPipeline.visitedDataForest (ConversionPipeline.scaleForest sc ox oy es) =
      (ConversionPipeline.visitedDataForest es).map (ConversionPipeline.scaleData sc ox oy)
  | .nil => rfl
  | .cons e es => by
    simp [ConversionPipeline.scaleForest, ConversionPipeline.visitedDataForest,
      scaleElement_visited sc ox oy e, scaleForest_visited sc ox oy es]
end

theorem calcScaling_some (es : PPTXForest) (opts : ConversionPipeline.ConversionOptions)
    (b : ConversionPipeline.ContentBounds)
    (hb : ConversionPipeline.calculateContentBounds es = some b) :
    ConversionPipeline.calculateAndApplyScaling es opts =
      (let slideWidth := ConversionPipeline.qOrDefault opts.slideWidth (13333/1000)
       let slideHeight := ConversionPipeline.qOrDefault opts.slideHeight (15/2)
       let contentWidth := b.maxX - b.minX
       let contentHeight := b.maxY - b.minY
       let scaleX := if contentWidth > 0 then min 1 (slideWidth / contentWidth) else 1
       let scaleY := if contentHeight > 0 then min 1 (slideHeight / contentHeight) else 1
       let scale := max (min scaleX scaleY) (1/2)
       if scale < 1 then
         (scale, ConversionPipeline.applyScalingToElements es scale b.minX b.minY)
       else (scale, es)) := by
  unfold ConversionPipeline.calculateAndApplyScaling
  rw [hb]

/-- **C1** — when the content envelope (computed excluding table-internal
children) exceeds the slide in either axis and is non-degenerate, the
auto-scaling step computes
`scale = max(0.5, min(1, slideWidth/contentWidth, slideHeight/contentHeight))`,
that scale is `< 1` and is applied: every visited (non-table-internal)
primitive's position becomes `origin + (coord - origin) * scale` relative to
the envelope's minimum corner, and every present font size is multiplied by
the scale, rounded to whole points and floored at 6pt; moreover the returned
scale always lies in `[0.5, 1]`. -/
theorem C1_autoscale :
    (∀ (es : PPTXForest) (opts : ConversionPipeline.ConversionOptions)
        (b : ConversionPipeline.ContentBounds),
      ConversionPipeline.calculateContentBounds es = some b →
      0 < b.maxX - b.minX → 0 < b.maxY - b.minY →
      (ConversionPipeline.qOrDefault opts.slideWidth (13333/1000) < b.maxX - b.minX ∨
       ConversionPipeline.qOrDefault opts.slideHeight (15/2) < b.maxY - b.minY) →
      (ConversionPipeline.calculateAndApplyScaling es opts).1 =
        max (1/2) (min 1
          (min (ConversionPipeline.qOrDefault opts.slideWidth (13333/1000) / (b.maxX - b.minX))
               (ConversionPipeline.qOrDefault opts.slideHeight (15/2) / (b.maxY - b.minY)))) ∧
      (ConversionPipeline.calculateAndApplyScaling es opts).1 < 1 ∧
      (ConversionPipeline.visitedDataForest
          (ConversionPipeline.calculateAndApplyScaling es opts).2).map
          (fun d => (d.position.x, d.position.y)) =
        (ConversionPipeline.visitedDataForest es).map (fun d =>
          (b.minX + (d.position.x - b.minX) *
            (ConversionPipeline.calculateAndApplyScaling es opts).1,
           b.minY + (d.position.y - b.minY) *
            (ConversionPipeline.calculateAndApplyScaling es opts).1)) ∧
      (ConversionPipeline.visitedDataForest
          (ConversionPipeline.calculateAndApplyScaling es opts).2).map
          (fun d => d.styles.fontSize) =
        (ConversionPipeline.visitedDataForest es).map (fun d =>
          d.styles.fontSize.map (fun f => if f = 0 then f
            else max 6 (jsRound (f *
              (ConversionPipeline.calculateAndApplyScaling es opts).1))))) ∧
    (∀ (es : PPTXForest) (opts : ConversionPipeline.ConversionOptions),
      1/2 ≤ (ConversionPipeline.calculateAndApplyScaling es opts).1 ∧
      (ConversionPipeline.calculateAndApplyScaling es opts).1 ≤ 1) := by
  constructor
  · intro es opts b hb hcw hch hex
    rw [calcScaling_some es opts b hb]
    simp only []
    rw [if_pos hcw, if_pos hch]
    set sW := ConversionPipeline.qOrDefault opts.slideWidth (13333/1000) with hsW
    set sH := ConversionPipeline.qOrDefault opts.slideHeight (15/2) with hsH
    set cW := b.maxX - b.minX with hcWd
    set cH := b.maxY - b.minY with hcHd
    have hsmall : max (min (min 1 (sW / cW)) (min 1 (sH / cH))) (1/2) < 1 := by
      have h1 : min (min 1 (sW / cW)) (min 1 (sH / cH)) < 1 := by
        rcases hex with h | h
        · have hd : sW / cW < 1 := (div_lt_one hcw).mpr h
          exact lt_of_le_of_lt (le_trans (min_le_left _ _) (min_le_right _ _)) hd
        · have hd : sH / cH < 1 := (div_lt_one hch).mpr h
          exact lt_of_le_of_lt (le_trans (min_le_right _ _) (min_le_right _ _)) hd
      exact max_lt h1 (by norm_num)
    rw [if_pos hsmall]
    dsimp only
    have hform : max (min (min 1 (sW / cW)) (min 1 (sH / cH))) (1/2) =
        max (1/2) (min 1 (min (sW / cW) (sH / cH))) := by
      rw [max_comm]
      congr 1
      rw [min_min_min_comm, min_self]
    refine ⟨hform, hsmall, ?_, ?_⟩
    · unfold ConversionPipeline.applyScalingToElements
      rw [scaleForest_visited, List.map_map]
      rfl
    · unfold ConversionPipeline.applyScalingToElements
      rw [scaleForest_visited, List.map_map]
      refine List.map_congr_left ?_
      intro d _
      simp only [Function.comp_apply]
      unfold ConversionPipeline.scaleData
      cases hfs : d.styles.fontSize with
      | none => simp [hfs]
      | some f =>
        by_cases hz : f = 0
        · simp [hfs, hz]
        · simp [hfs, hz]
  · intro es opts
    cases hb : ConversionPipeline.calculateContentBounds es with
    | none =>
      unfold ConversionPipeline.calculateAndApplyScaling
      rw [hb]
      norm_num
    | some b =>
      rw [calcScaling_some es opts b hb]
      simp only []
      set sx := (if b.maxX - b.minX > 0 then
        min 1 (ConversionPipeline.qOrDefault opts.slideWidth (13333/1000) / (b.maxX - b.minX))
        else 1) with hsx
      set sy := (if b.maxY - b.minY > 0 then
        min 1 (ConversionPipeline.qOrDefault opts.slideHeight (15/2) / (b.maxY - b.minY))
        else 1) with hsy
      have hsx1 : sx ≤ 1 := by
        rw [hsx]
        split
        · exact min_le_left _ _
        · exact le_refl 1
      constructor
      · split <;> exact le_max_right _ _
      · have hm : max (min sx sy) (1/2) ≤ 1 :=
          max_le (le_trans (min_le_left _ _) hsx1) (by norm_num)
        split <;> exact hm

/-- **C1 witness**: Scenario E — a 20in × 10in envelope on the default
13.333in × 7.5in slide scales by `13333/20000 ≈ 0.667`. -/
theorem C1_witness :
    (ConversionPipeline.calculateAndApplyScaling (.cons exWideBox .nil) {}).1 =
      max (1/2) (min 1
        (min (ConversionPipeline.qOrDefault ({} : ConversionPipeline.ConversionOptions).slideWidth (13333/1000) / ((20 : ℚ) - 0))
             (ConversionPipeline.qOrDefault ({} : ConversionPipeline.ConversionOptions).slideHeight (15/2) / ((10 : ℚ) - 0)))) ∧
    (ConversionPipeline.calculateAndApplyScaling (.cons exWideBox .nil) {}).1 < 1 ∧
    (ConversionPipeline.visitedDataForest
        (ConversionPipeline.calculateAndApplyScaling (.cons exWideBox .nil) {}).2).map
        (fun d => (d.position.x, d.position.y)) =
      (ConversionPipeline.visitedDataForest (.cons exWideBox .nil)).map (fun d =>
        ((0 : ℚ) + (d.position.x - 0) *
          (ConversionPipeline.calculateAndApplyScaling (.cons exWideBox .nil) {}).1,
         (0 : ℚ) + (d.position.y - 0) *
          (ConversionPipeline.calculateAndApplyScaling (.cons exWideBox .nil) {}).1)) ∧
    (ConversionPipeline.visitedDataForest
        (ConversionPipeline.calculateAndApplyScaling (.cons exWideBox .nil) {}).2).map
        (fun d => d.styles.fontSize) =
      (ConversionPipeline.visitedDataForest (.cons exWideBox .nil)).map (fun d =>
        d.styles.fontSize.map (fun f => if f = 0 then f
          else max 6 (jsRound (f *
            (ConversionPipeline.calculateAndApplyScaling (.cons exWideBox .nil) {}).1)))) :=
  C1_autoscale.1 (.cons exWideBox .nil) {} ⟨0, 0, 20, 10⟩
    (by simp +decide [ConversionPipeline.calculateContentBounds,
        ConversionPipeline.visitedDataForest, ConversionPipeline.visitedDataElem, exWideBox]
        try norm_num [ConversionPipeline.ContentBounds.mk.injEq])
    (by norm_num) (by norm_num)
    (Or.inl (by
      simp +decide [ConversionPipeline.qOrDefault]
      try norm_num))

/-! ### C4: decorative filtering and text-bearing leaves -/

theorem textLeavesForest_append : ∀ xs ys : ParsedForest,
    ConversionPipeline.textLeavesForest (ParsedForest.append xs ys) =
      ConversionPipeline.textLeavesForest xs ++ ConversionPipeline.textLeavesForest ys
  | .nil, ys => by simp [ConversionPipeline.textLeavesForest]
  | .cons x xs, ys => by
    simp [ConversionPipeline.textLeavesForest, textLeavesForest_append xs ys]

mutual
theorem keptTextLeaves_sublist_elem : ∀ e : ParsedElement,
    List.Sublist (ConversionPipeline.keptTextLeavesElem e)
      (ConversionPipeline.textLeavesForest (ConversionPipeline.processElement e))
  | .mk d .nil => by
    unfold ConversionPipeline.processElement ConversionPipeline.keptTextLeavesElem
    by_cases hf : ConversionPipeline.shouldFilterElement d
        ConversionPipeline.filterSlideWidth ConversionPipeline.filterSlideHeight = true
    · simp [hf, ConversionPipeline.processForest, ConversionPipeline.textLeavesForest]
    · simp only [Bool.not_eq_true] at hf
      by_cases htc : (d.textContent == "") = true
      · simp [hf, htc, ConversionPipeline.processForest,
          ConversionPipeline.textLeavesForest, ConversionPipeline.textLeavesElem]
      · simp only [Bool.not_eq_true] at htc
        simp [hf, htc, ConversionPipeline.processForest,
          ConversionPipeline.textLeavesForest, ConversionPipeline.textLeavesElem]
  | .mk d (.cons c cs) => by
    have ihf := keptTextLeaves_sublist_forest (.cons c cs)
    unfold ConversionPipeline.processElement ConversionPipeline.keptTextLeavesElem
    by_cases hf : ConversionPipeline.shouldFilterElement d
        ConversionPipeline.filterSlideWidth ConversionPipeline.filterSlideHeight = true
    · simpa [hf] using ihf
    · simp only [Bool.not_eq_true] at hf
      simp only [hf, Bool.false_eq_true, if_false]
      cases hpc : ConversionPipeline.processForest (.cons c cs) with
      | nil =>
        rw [hpc] at ihf
        have hk : ConversionPipeline.keptTextLeavesForest (.cons c cs) = [] := by
          have := List.sublist_nil.mp (by
            simpa [ConversionPipeline.textLeavesForest] using ihf)
          exact this
        simp [hk]
      | cons p ps =>
        rw [hpc] at ihf
        simpa [ConversionPipeline.textLeavesForest, ConversionPipeline.textLeavesElem]
          using ihf
theorem keptTextLeaves_sublist_forest : ∀ es : ParsedForest,
    List.Sublist (ConversionPipeline.keptTextLeavesForest es)
      (ConversionPipeline.textLeavesForest (ConversionPipeline.processForest es))
  | .nil => by simp [ConversionPipeline.keptTextLeavesForest,
      ConversionPipeline.processForest, ConversionPipeline.textLeavesForest]
  | .cons e es => by
    have ih1 := keptTextLeaves_sublist_elem e
    have ih2 := keptTextLeaves_sublist_forest es
    unfold ConversionPipeline.processForest ConversionPipeline.keptTextLeavesForest
    rw [textLeavesForest_append]
    exact List.Sublist.append ih1 ih2
end

/-- **C4 (amended)** — decorative filtering splices a removed node's children
into its parent's position (tree flattening), and consequently every
text-bearing **leaf that does not itself satisfy the filter predicate**
survives filtering unchanged, in document order (an ordered sublist of the
filtered tree's text leaves).  Text-bearing leaves that satisfy the predicate
are removed together with their text, so the full leaf multiset is *not*
always preserved. -/
theorem C4_filtering_keeps_unfiltered_text_leaves (F : ParsedForest) :
    List.Sublist (ConversionPipeline.keptTextLeavesForest F)
      (ConversionPipeline.textLeavesForest
        (ConversionPipeline.filterDecorativeElements F)) :=
  keptTextLeaves_sublist_forest F

/-- **C4 counterexample** — a single text-bearing leaf (a 30in-wide
paragraph with text `"hi"`) is removed by the decorative filter: the
text-leaf multiset before filtering is `[⟨…"hi"…⟩]`, after filtering it is
empty, so the claimed multiset identity fails. -/
theorem C4_counterexample :
    ConversionPipeline.textLeavesForest
      (ConversionPipeline.filterDecorativeElements (.cons exHugeTextLeaf .nil)) = [] ∧
    ConversionPipeline.textLeavesForest (.cons exHugeTextLeaf .nil) =
      [exHugeTextLeaf.data] := by
  constructor
  · have hfilter : ConversionPipeline.filterDecorativeElements
        (.cons exHugeTextLeaf .nil) = .nil := by
      simp +decide [ConversionPipeline.filterDecorativeElements,
        ConversionPipeline.processForest, ConversionPipeline.processElement,
        ConversionPipeline.shouldFilterElement, exHugeTextLeaf,
        ConversionPipeline.filterSlideWidth, ConversionPipeline.filterSlideHeight,
        jsOrDefault, qOptGt,
        show jsParseFloat "0px" = some 0 from by
          simp +decide [jsParseFloat, digitsVal, fracVal, Char.toNat]]
      norm_num
    rw [hfilter]
    rfl
  · simp +decide [ConversionPipeline.textLeavesForest,
      ConversionPipeline.textLeavesElem, exHugeTextLeaf, ParsedElement.data]
/-- **C4 witness**: the amended sublist preservation applied at the
counterexample forest augmented with a kept text leaf. -/
theorem C4_witness :
    List.Sublist
      (ConversionPipeline.keptTextLeavesForest
        (.cons exHugeTextLeaf (.cons (.mk ⟨"k", "p", "ok", {}, ⟨0, 0, 1, 1⟩⟩ .nil) .nil)))
      (ConversionPipeline.textLeavesForest
        (ConversionPipeline.filterDecorativeElements
          (.cons exHugeTextLeaf (.cons (.mk ⟨"k", "p", "ok", {}, ⟨0, 0, 1, 1⟩⟩ .nil) .nil)))) :=
  C4_filtering_keeps_unfiltered_text_leaves
    (.cons exHugeTextLeaf (.cons (.mk ⟨"k", "p", "ok", {}, ⟨0, 0, 1, 1⟩⟩ .nil) .nil))
